import Mathlib

/-! # Storybook UI store (`lib/ui/src/store.js`)

A shallow embedding of the selection reconciler (`ensureKind`, `ensureStory`),
the store operations that use it (`setStories`, `selectStory`,
`selectInCurrentKind`), the linear traversal (`jumpToStory`), the shortcut
dispatcher (`handleEvent`), the panel selector (`ensurePanel`, `setOptions`,
`selectAddonPanel`) and the URL projection (`urlState`, `setQueryParams`,
`setShortcutsOptions`, `updateFromLocation`), followed by the properties
proved about them.

The store is a mutable MobX observable in the source; here every operation is a
function from the state before the call to the state after it.
-/

namespace Storybook

/-! ## Values -/

/-- The JavaScript values that can be held by the fields of the store that the
operations below read or write: `undefined`, `null`, booleans, integral numbers
and strings. -/
inductive JSVal where
  | undefined
  | null
  | bool (b : Bool)
  | num (n : Int)
  | str (s : String)
  deriving DecidableEq, Repr

namespace JSVal

/-- JavaScript `ToBoolean`, the test applied by `if (x)`, `!x` and `x ? a : b`. -/
def truthy : JSVal → Bool
  | undefined => false
  | null => false
  | bool b => b
  | num n => decide (n ≠ 0)
  | str s => decide (s ≠ "")

/-- The result of an array lookup (`xs.find(..)`, `xs[i]`) on an array of
strings: the element, or `undefined` when there is none. -/
def ofOption : Option String → JSVal
  | some s => str s
  | none => undefined

/-- A value that stands for "no selection": `null` or `undefined`. -/
def isNone : JSVal → Bool
  | undefined => true
  | null => true
  | _ => false

end JSVal

/-- One entry of the hierarchy: `{ kind, stories }`. -/
structure Item where
  kind : String
  stories : List String
  deriving DecidableEq, Repr

/-! ## The reconciler -/

/-- The function `ensureKind(stories, selectedKind)`, lines 7-15. The callback
of `find` compares with `===`; the found entry is an object, hence truthy. -/
def ensureKind (stories : List Item) (selectedKind : JSVal) : JSVal :=
  if stories.length = 0 then selectedKind
  else
    match stories.find? (fun item => decide (JSVal.str item.kind = selectedKind)) with
    | some _ => selectedKind
    | none =>
      -- `stories[0].kind`; the array is not empty here
      match stories[0]? with
      | some item => JSVal.str item.kind
      | none => JSVal.undefined

/-- The function `ensureStory(stories, selectedKind, selectedStory)`, lines
17-28. The first test is `!stories.length === 0`: the negation is applied
first, so a boolean is compared with the number `0` by `===`. The second
`find` returns a string, which is then tested for truthiness. -/
def ensureStory (stories : List Item) (selectedKind selectedStory : JSVal) : JSVal :=
  if JSVal.bool (!(JSVal.num stories.length).truthy) = JSVal.num 0 then selectedStory
  else
    match stories.find? (fun item => decide (JSVal.str item.kind = selectedKind)) with
    | none => JSVal.null
    | some kindInfo =>
      let found :=
        JSVal.ofOption (kindInfo.stories.find? (fun item => decide (JSVal.str item = selectedStory)))
      if found.truthy then found
      else
        -- `kindInfo.stories[0]`
        JSVal.ofOption kindInfo.stories[0]?

/-! ## The store -/

/-- The object `shortcutOptions` of the store. -/
structure ShortcutOptions where
  full : JSVal
  nav : JSVal
  panel : JSVal
  enableShortcuts : JSVal
  deriving DecidableEq, Repr

/-- The observable state of the store. `selectedKind` and `selectedStory` are
not among the initial properties of the object, so they read as `undefined`
until an operation assigns them. The objects `uiOptions` and
`customQueryParams` are kept as association lists. -/
structure Store where
  stories : List Item
  showShortcutsHelp : JSVal
  storyFilter : JSVal
  selectedAddonPanel : JSVal
  shortcutOptions : ShortcutOptions
  uiOptions : List (String × JSVal)
  customQueryParams : List (String × JSVal)
  selectedKind : JSVal
  selectedStory : JSVal
  deriving DecidableEq, Repr

/-- The state built by `createStore`, lines 41-64. -/
def initialStore : Store where
  stories := []
  showShortcutsHelp := JSVal.bool false
  storyFilter := JSVal.null
  selectedAddonPanel := JSVal.null
  shortcutOptions :=
    { full := JSVal.bool false
      nav := JSVal.bool true
      panel := JSVal.str "right"
      enableShortcuts := JSVal.bool true }
  uiOptions :=
    [ ("name", JSVal.str "STORYBOOK"),
      ("url", JSVal.str "https://github.com/storybooks/storybook"),
      ("sortStoriesByKind", JSVal.bool false),
      ("hierarchySeparator", JSVal.str "/"),
      ("hierarchyRootSeparator", JSVal.null),
      ("sidebarAnimations", JSVal.bool true),
      ("theme", JSVal.null) ]
  customQueryParams := []
  selectedKind := JSVal.undefined
  selectedStory := JSVal.undefined

/-- The action `setStories(stories)`, lines 178-186. -/
def setStories (stories : List Item) (s : Store) : Store :=
  let selectedKind := ensureKind stories s.selectedKind
  let currentSelectedStory :=
    if s.selectedKind = selectedKind then s.selectedStory else JSVal.null
  let selectedStory := ensureStory stories selectedKind currentSelectedStory
  { s with stories := stories, selectedStory := selectedStory, selectedKind := selectedKind }

/-- The action `selectStory(kind, story)`, lines 188-194. -/
def selectStory (kind story : JSVal) (s : Store) : Store :=
  let selectedKind := ensureKind s.stories kind
  let selectedStory := ensureStory s.stories selectedKind story
  { s with selectedStory := selectedStory, selectedKind := selectedKind }

/-- The action `selectInCurrentKind(story)`, lines 196-200. -/
def selectInCurrentKind (story : JSVal) (s : Store) : Store :=
  let selectedStory := ensureStory s.stories s.selectedKind story
  { s with selectedStory := selectedStory }

/-! ## Linear traversal -/

/-- An element of the array `flatteredStories`: `{ kind, story }`. -/
structure FlatStory where
  kind : String
  story : String
  deriving DecidableEq, Repr

/-- The two variables that the nested `forEach` loops of `jumpToStory` update. -/
structure JumpScan where
  flatteredStories : List FlatStory
  currentIndex : Int
  deriving DecidableEq, Repr

/-- The body of the inner `forEach` of `jumpToStory`, lines 98-103: push the
pair, then record its index when it equals the selection. -/
def jumpScanStory (selectedKind selectedStory : JSVal) (kind : String)
    (acc : JumpScan) (story : String) : JumpScan :=
  let flatteredStories := acc.flatteredStories ++ [{ kind := kind, story := story }]
  if JSVal.str kind = selectedKind ∧ JSVal.str story = selectedStory then
    { flatteredStories := flatteredStories
      currentIndex := (flatteredStories.length : Int) - 1 }
  else
    { flatteredStories := flatteredStories
      currentIndex := acc.currentIndex }

/-- The nested `forEach` loops of `jumpToStory`, lines 94-104, started with an
empty array and `currentIndex = -1`. -/
def jumpScan (selectedKind selectedStory : JSVal) (stories : List Item) : JumpScan :=
  stories.foldl
    (fun acc item => item.stories.foldl (jumpScanStory selectedKind selectedStory item.kind) acc)
    { flatteredStories := [], currentIndex := -1 }

/-- The array read `xs[i]` at an integer index: `undefined` (here `none`)
when the index is negative or not below the length. -/
def arrayGet {α : Type} (xs : List α) (i : Int) : Option α :=
  if i < 0 then none else xs[i.toNat]?

/-- The action `jumpToStory(direction)`, lines 93-113. An element of
`flatteredStories` is an object, so `!jumpedStory` holds exactly when the read
is out of bounds. -/
def jumpToStory (direction : Int) (s : Store) : Store :=
  let scan := jumpScan s.selectedKind s.selectedStory s.stories
  match arrayGet scan.flatteredStories (scan.currentIndex + direction) with
  | none => s
  | some jumpedStory =>
    { s with selectedKind := JSVal.str jumpedStory.kind
             selectedStory := JSVal.str jumpedStory.story }

/-- The flattened sequence of a hierarchy: kinds in order and, within each
kind, stories in order. -/
def flattenStories : List Item → List FlatStory
  | [] => []
  | item :: rest =>
    item.stories.map (fun story => { kind := item.kind, story := story }) ++ flattenStories rest

/-! ## Shortcut dispatcher -/

/-- Modelled from the spec: the event constants `features` of
`./libs/key_events`, a module that is imported by the store but is not part of
the sources at hand. Only the constants that `handleEvent` compares with are
listed; their values are left open. -/
structure Features where
  NEXT_STORY : JSVal
  PREV_STORY : JSVal
  FULLSCREEN : JSVal
  ADDON_PANEL : JSVal
  STORIES_PANEL : JSVal
  SHOW_SEARCH : JSVal
  ADDON_PANEL_IN_RIGHT : JSVal
  deriving DecidableEq, Repr

/-- The seven constants are pairwise different values. -/
def Features.distinct (f : Features) : Prop :=
  [f.NEXT_STORY, f.PREV_STORY, f.FULLSCREEN, f.ADDON_PANEL, f.STORIES_PANEL, f.SHOW_SEARCH,
    f.ADDON_PANEL_IN_RIGHT].Nodup

instance (f : Features) : Decidable f.distinct := by
  unfold Features.distinct; infer_instance

/-- Modelled from the spec: an instance of the event constants of
`./libs/key_events` in which every constant is the string of its own name. -/
def namedFeatures : Features where
  NEXT_STORY := JSVal.str "NEXT_STORY"
  PREV_STORY := JSVal.str "PREV_STORY"
  FULLSCREEN := JSVal.str "FULLSCREEN"
  ADDON_PANEL := JSVal.str "ADDON_PANEL"
  STORIES_PANEL := JSVal.str "STORIES_PANEL"
  SHOW_SEARCH := JSVal.str "SHOW_SEARCH"
  ADDON_PANEL_IN_RIGHT := JSVal.str "ADDON_PANEL_IN_RIGHT"

/-- The action `toggleSearchBox()`, lines 165-167: its body is commented out. -/
def toggleSearchBox (s : Store) : Store := s

/-- The action `handleEvent(event)`, lines 115-152. The `switch` compares the
event with each case constant by `===`, in the order of the source, and runs
the first case that matches. -/
def handleEvent (features : Features) (event : JSVal) (s : Store) : Store :=
  if !s.shortcutOptions.enableShortcuts.truthy then s
  else if event = features.NEXT_STORY then jumpToStory 1 s
  else if event = features.PREV_STORY then jumpToStory (-1) s
  else if event = features.FULLSCREEN then
    { s with shortcutOptions :=
        { s.shortcutOptions with full := JSVal.bool (!s.shortcutOptions.full.truthy) } }
  else if event = features.ADDON_PANEL then
    { s with shortcutOptions :=
        { s.shortcutOptions with
          panel := if s.shortcutOptions.panel.truthy then JSVal.bool false else JSVal.str "right" } }
  else if event = features.STORIES_PANEL then
    { s with shortcutOptions :=
        { s.shortcutOptions with nav := JSVal.bool (!s.shortcutOptions.nav.truthy) } }
  else if event = features.SHOW_SEARCH then toggleSearchBox s
  else if event = features.ADDON_PANEL_IN_RIGHT then
    { s with shortcutOptions :=
        { s.shortcutOptions with
          panel :=
            if s.shortcutOptions.panel = JSVal.str "bottom" then JSVal.str "right"
            else JSVal.str "bottom" } }
  else s

/-! ## Sequences of calls -/

/-- A call of one of the four operations that touch the selection. -/
inductive SelectionCall where
  | setStories (stories : List Item)
  | selectStory (kind story : JSVal)
  | selectInCurrentKind (story : JSVal)
  | jumpToStory (direction : Int)
  deriving DecidableEq, Repr

/-- The state after one call. -/
def SelectionCall.apply : SelectionCall → Store → Store
  | .setStories stories, s => Storybook.setStories stories s
  | .selectStory kind story, s => Storybook.selectStory kind story s
  | .selectInCurrentKind story, s => Storybook.selectInCurrentKind story s
  | .jumpToStory direction, s => Storybook.jumpToStory direction s

/-- The state after a finite sequence of calls, run from left to right. -/
def runCalls (calls : List SelectionCall) (s : Store) : Store :=
  calls.foldl (fun st call => call.apply st) s

/-! ## Auxiliary definitions for the traversal -/

/-- The scan of `jumpToStory` run over an already flattened sequence of pairs,
from the loop state `acc`. -/
def scanPairs (selectedKind selectedStory : JSVal) (acc : JumpScan)
    (pairs : List FlatStory) : JumpScan :=
  pairs.foldl (fun acc p => jumpScanStory selectedKind selectedStory p.kind acc p.story) acc

/-- The pair `p` is the selection, by the comparison of line 100. -/
def isSelection (selectedKind selectedStory : JSVal) (p : FlatStory) : Prop :=
  JSVal.str p.kind = selectedKind ∧ JSVal.str p.story = selectedStory

instance (selectedKind selectedStory : JSVal) (p : FlatStory) :
    Decidable (isSelection selectedKind selectedStory p) := by
  unfold isSelection; infer_instance

/-! ## Validity of the selection -/

/-- The selection is `(none, none)`, or `selectedKind` is the kind of an entry
of the hierarchy and `selectedStory` is a story of that entry. -/
def SelectionValid (s : Store) : Prop :=
  (s.selectedKind.isNone = true ∧ s.selectedStory.isNone = true) ∨
  ∃ e ∈ s.stories, JSVal.str e.kind = s.selectedKind ∧
    ∃ x ∈ e.stories, JSVal.str x = s.selectedStory

instance (s : Store) : Decidable (SelectionValid s) := by
  unfold SelectionValid; infer_instance

/-- What the reconciler maintains: the hierarchy is empty (there is nothing to
validate the selection against), or `selectedKind` is the kind of an entry and
`selectedStory` is a story of that entry, or `selectedKind` is a kind of the
hierarchy whose first entry has no stories and `selectedStory` is `undefined`. -/
def SelectionReconciled (s : Store) : Prop :=
  s.stories = [] ∨
  (∃ e ∈ s.stories, JSVal.str e.kind = s.selectedKind ∧
    ∃ x ∈ e.stories, JSVal.str x = s.selectedStory) ∨
  (∃ e, s.stories.find? (fun item => decide (JSVal.str item.kind = s.selectedKind)) = some e ∧
    e.stories = [] ∧ s.selectedStory = JSVal.undefined)

/-! ## Example data -/

/-- The hierarchy `[{kind: "A", stories: ["a1", "a2"]}, {kind: "B", stories: ["b1"]}]`. -/
def hierarchyAB : List Item :=
  [{ kind := "A", stories := ["a1", "a2"] }, { kind := "B", stories := ["b1"] }]

/-- The hierarchy `[{kind: "B", stories: ["b1", "b2"]}]`. -/
def hierarchyB : List Item :=
  [{ kind := "B", stories := ["b1", "b2"] }]

/-- A store over `stories` with the selection `(kind, story)`; every other
field is as in the initial state. -/
def storeWith (stories : List Item) (kind story : JSVal) : Store :=
  { initialStore with stories := stories, selectedKind := kind, selectedStory := story }

/-- The hierarchy `[{kind: "A", stories: ["a", "b"]}, {kind: "A", stories: ["a"]}]`,
in which two entries share the kind and a story name. -/
def hierarchyAA : List Item :=
  [{ kind := "A", stories := ["a", "b"] }, { kind := "A", stories := ["a"] }]

/-- The hierarchy `[{kind: "A", stories: []}, {kind: "B", stories: ["b1"]}]`,
whose first kind has no stories. -/
def hierarchyEmptyA : List Item :=
  [{ kind := "A", stories := [] }, { kind := "B", stories := ["b1"] }]

/-! ## Objects -/

/-- A plain JavaScript object with string keys, as the list of its entries. A
property is looked up by taking the first entry of its key. -/
abbrev Obj := List (String × JSVal)

/-- The own property `key` of an object, when the object has it. -/
def objGet? : Obj → String → Option JSVal
  | [], _ => none
  | (k, v) :: rest, key => if k = key then some v else objGet? rest key

/-- The property read `o[key]`, which is `undefined` for a key that the object
lacks. -/
def objRead (o : Obj) (key : String) : JSVal :=
  (objGet? o key).getD JSVal.undefined

/-- The assignment `o[key] = v`: an existing property keeps its place, a new
one is added at the end. -/
def objSet : Obj → String → JSVal → Obj
  | [], key, v => [(key, v)]
  | (k, w) :: rest, key, v =>
    if k = key then (k, v) :: rest else (k, w) :: objSet rest key v

/-- The call `Object.keys(o)`. -/
def objKeys (o : Obj) : List String :=
  o.map Prod.fst

/-- Copying the own properties of `source` onto `target`, one assignment per
key of `source`; this is what the spread `{ ...target, ...source }` of an
object literal does. -/
def objAssign (target source : Obj) : Obj :=
  (objKeys source).foldl (fun acc key => objSet acc key (objRead source key)) target

/-- MobX `set(obj, values)` on an observable object: it assigns `values[key]`
to `obj[key]` for every key of `values` and leaves the other properties of
`obj` as they are. -/
def mobxSet (obj values : Obj) : Obj :=
  objAssign obj values

/-- Lodash `pick(object, keys)`: a new object with those of the listed
properties that `object` has. The keys that the store lists are plain property
names. -/
def pick (object : Obj) (keys : List String) : Obj :=
  keys.foldl
    (fun acc key =>
      if (objGet? object key).isSome then objSet acc key (objRead object key) else acc)
    []

/-- The rest element `...rest` of an object destructuring pattern: the own
properties whose keys the pattern does not name. -/
def objRest (o : Obj) (named : List String) : Obj :=
  o.filter (fun entry => decide (entry.1 ∉ named))

/-- A destructuring default `{ key = d }`: the default replaces the value
`undefined`. -/
def withDefault (v d : JSVal) : JSVal :=
  if v = JSVal.undefined then d else v

/-- The expression `Boolean(Number(v))`. `Number` turns `undefined` into NaN,
`null` into `0`, `true` into `1` and `false` into `0`; for a string the
outcome depends on the grammar of numeric string literals, which is not
reproduced here: `numberIsTruthy s` tells whether `Number(s)` is a number
other than `0` and NaN. -/
def booleanOfNumber (numberIsTruthy : String → Bool) : JSVal → Bool
  | JSVal.undefined => false
  | JSVal.null => false
  | JSVal.bool b => b
  | JSVal.num n => decide (n ≠ 0)
  | JSVal.str s => numberIsTruthy s

/-! ## Query parameters and URL state -/

/-- The assignment `acc[key] = v` of line 206, on the object that the `reduce`
starts as the literal `{}`, for a value that is not `null`. For the key
`"__proto__"` the assignment runs the setter that `{}` inherits from
`Object.prototype`; that setter ignores a value that is neither an object nor
`null`, so no property is created and the object stays as it is. For every
other key the assignment is `objSet`. -/
def objPut (o : Obj) (key : String) (v : JSVal) : Obj :=
  if key = "__proto__" then o else objSet o key v

/-- The action `setQueryParams(customQueryParams)`, lines 202-210: the `reduce`
assigns the entries whose value is not `null` to a fresh object, and `set`
assigns the properties of that object to the stored one. -/
def setQueryParams (customQueryParams : Obj) (s : Store) : Store :=
  { s with
    customQueryParams :=
      mobxSet s.customQueryParams
        ((objKeys customQueryParams).foldl
          (fun acc key =>
            if objRead customQueryParams key ≠ JSVal.null then
              objPut acc key (objRead customQueryParams key)
            else acc)
          []) }

/-- The getter `urlState`, lines 154-163. -/
def urlState (s : Store) : Obj :=
  objAssign
    [ ("selectedKind", s.selectedKind),
      ("selectedStory", s.selectedStory),
      ("full", s.shortcutOptions.full),
      ("panel", s.shortcutOptions.panel),
      ("nav", s.shortcutOptions.nav) ]
    s.customQueryParams

/-- The keys of `shortcutOptions`, in the order of the object literal. -/
def ShortcutOptions.keys : List String :=
  ["full", "nav", "panel", "enableShortcuts"]

/-- The assignment `shortcutOptions[key] = v` for one of its four keys. -/
def ShortcutOptions.assign (o : ShortcutOptions) (key : String) (v : JSVal) : ShortcutOptions :=
  if key = "full" then { o with full := v }
  else if key = "nav" then { o with nav := v }
  else if key = "panel" then { o with panel := v }
  else if key = "enableShortcuts" then { o with enableShortcuts := v }
  else o

/-- The action `setShortcutsOptions(options)`, lines 89-91. -/
def setShortcutsOptions (options : Obj) (s : Store) : Store :=
  let picked := pick options ShortcutOptions.keys
  { s with
    shortcutOptions :=
      (objKeys picked).foldl (fun acc key => acc.assign key (objRead picked key))
        s.shortcutOptions }

/-- The action `selectAddonPanel(panelName)`, lines 174-176. -/
def selectAddonPanel (panelName : JSVal) (s : Store) : Store :=
  { s with selectedAddonPanel := panelName }

/-- The keys that the destructuring pattern of `updateFromLocation` names. -/
def locationKeys : List String :=
  ["selectedKind", "selectedStory", "addonPanel", "full", "panel", "nav"]

/-- The action `updateFromLocation(params)`, lines 212-239. -/
def updateFromLocation (numberIsTruthy : String → Bool) (params : Obj) (s : Store) : Store :=
  let selectedKind := objRead params "selectedKind"
  let selectedStory := objRead params "selectedStory"
  let addonPanel := objRead params "addonPanel"
  let full := withDefault (objRead params "full") (JSVal.num 0)
  let panel := withDefault (objRead params "panel") (JSVal.str "bottom")
  let nav := withDefault (objRead params "nav") (JSVal.bool true)
  let customQueryParams := objRest params locationKeys
  let s1 :=
    if selectedKind.truthy then
      { s with selectedKind := selectedKind, selectedStory := selectedStory }
    else s
  let s2 :=
    setShortcutsOptions
      [ ("full", JSVal.bool (booleanOfNumber numberIsTruthy full)),
        ("panel",
          if panel = JSVal.str "bottom" ∨ panel = JSVal.str "right" then panel
          else JSVal.bool false),
        ("nav", JSVal.bool (booleanOfNumber numberIsTruthy nav)) ]
      s1
  let s3 := if addonPanel.truthy then selectAddonPanel addonPanel s2 else s2
  setQueryParams customQueryParams s3

/-! ## Panels -/

/-- The metadata of a panel, of which the store reads the title. -/
structure Panel where
  title : String
  deriving DecidableEq, Repr

/-- The console used by `ensurePanel`, acting on some console state. -/
structure Logger (σ : Type) where
  group : String → σ → σ
  log : String → σ → σ
  groupEnd : String → σ → σ

/-- The call `xs.indexOf(v)` on an array of strings: the index of the first
element that is `===` to `v`, or `-1`. -/
def indexOf : List String → JSVal → Int
  | [], _ => -1
  | x :: rest, v =>
    if JSVal.str x = v then 0
    else if indexOf rest v < 0 then -1 else indexOf rest v + 1

/-- The read `panels[panelID].title` for a key of the registry. -/
def panelTitle (panels : List (String × Panel)) (panelID : String) : String :=
  match panels.find? (fun entry => decide (entry.1 = panelID)) with
  | some entry => entry.2.title
  | none => ""

/-- The function `ensurePanel(panels, selectedPanel, currentPanel)`, lines
30-38, with the state of the console before and after the call. -/
def ensurePanel {σ : Type} (logger : Logger σ) (panels : List (String × Panel))
    (selectedPanel currentPanel : JSVal) (console : σ) : JSVal × σ :=
  if indexOf (panels.map Prod.fst) selectedPanel ≥ 0 then (selectedPanel, console)
  else
    let c1 := logger.group "Available Panels ID:" console
    let c2 :=
      (panels.map Prod.fst).foldl
        (fun c panelID => logger.log (panelID ++ " (" ++ panelTitle panels panelID ++ ")") c) c1
    let c3 := logger.groupEnd "Available Panels ID:" c2
    (currentPanel, c3)

/-- The action `setOptions(options)`, lines 74-87; `panels` is what the getter
`panels` obtains from the provider. -/
def setOptions {σ : Type} (logger : Logger σ) (panels : List (String × Panel))
    (options : Obj) (s : Store) (console : σ) : Store × σ :=
  let selectedAddonPanel := objRead options "selectedAddonPanel"
  let uiOptions := objRest options ["selectedAddonPanel"]
  let newOptions := pick uiOptions (objKeys s.uiOptions)
  let r : Store × σ :=
    if selectedAddonPanel.truthy then
      let e := ensurePanel logger panels selectedAddonPanel s.selectedAddonPanel console
      ({ s with selectedAddonPanel := e.1 }, e.2)
    else (s, console)
  ({ r.1 with uiOptions := mobxSet r.1.uiOptions newOptions }, r.2)

/-- A call of one of the three operations that touch `selectedAddonPanel`. -/
inductive PanelCall where
  | setOptions (options : Obj)
  | selectAddonPanel (panelName : JSVal)
  | updateFromLocation (params : Obj)
  deriving DecidableEq, Repr

/-- The store and the console after one call. -/
def PanelCall.apply {σ : Type} (logger : Logger σ) (panels : List (String × Panel))
    (numberIsTruthy : String → Bool) : PanelCall → Store × σ → Store × σ
  | .setOptions options, st => Storybook.setOptions logger panels options st.1 st.2
  | .selectAddonPanel panelName, st => (Storybook.selectAddonPanel panelName st.1, st.2)
  | .updateFromLocation params, st => (Storybook.updateFromLocation numberIsTruthy params st.1, st.2)

/-- The store and the console after a finite sequence of calls. -/
def runPanelCalls {σ : Type} (logger : Logger σ) (panels : List (String × Panel))
    (numberIsTruthy : String → Bool) (calls : List PanelCall) (st : Store × σ) : Store × σ :=
  calls.foldl (fun acc call => call.apply logger panels numberIsTruthy acc) st

/-- The panel name that a call assigns without consulting the registry, if it
assigns one. -/
def PanelCall.assigned : PanelCall → List JSVal
  | .setOptions _ => []
  | .selectAddonPanel panelName => [panelName]
  | .updateFromLocation params =>
    if (objRead params "addonPanel").truthy then [objRead params "addonPanel"] else []

/-- The panel names that the calls of a sequence assign without consulting the
registry. -/
def assignedPanels : List PanelCall → List JSVal
  | [] => []
  | call :: rest => call.assigned ++ assignedPanels rest

/-- `selectedAddonPanel` is absent or a key of the registry. -/
def PanelValid (panels : List (String × Panel)) (s : Store) : Prop :=
  s.selectedAddonPanel.isNone = true ∨
    ∃ key ∈ panels.map Prod.fst, JSVal.str key = s.selectedAddonPanel

instance (panels : List (String × Panel)) (s : Store) : Decidable (PanelValid panels s) := by
  unfold PanelValid; infer_instance

/-! ## Further example data -/

/-- A console that records what is written to it. -/
def listLogger : Logger (List String) where
  group := fun label out => out ++ ["group: " ++ label]
  log := fun line out => out ++ [line]
  groupEnd := fun label out => out ++ ["groupEnd: " ++ label]

/-- A registry with the panels `actions` and `knobs`. -/
def panelsAK : List (String × Panel) :=
  [("actions", { title := "Action Logger" }), ("knobs", { title := "Knobs" })]

/-- An instance of the parameter of `booleanOfNumber` for the examples below,
which convert no other strings than `"0"` and `"1"`: it is right on these two. -/
def zeroOneIsTruthy (s : String) : Bool :=
  decide (s = "1")

/-! ## Auxiliary facts about the reconciler -/

/-- The lookup `stories.find(item => item.kind === selectedKind)`. -/
theorem find_kind_eq_none {h : List Item} {k : JSVal} :
    h.find? (fun item => decide (JSVal.str item.kind = k)) = none ↔
      ∀ item ∈ h, JSVal.str item.kind ≠ k := by
  simp [List.find?_eq_none]

theorem find_kind_some {h : List Item} {k : JSVal} {e : Item}
    (hf : h.find? (fun item => decide (JSVal.str item.kind = k)) = some e) :
    e ∈ h ∧ JSVal.str e.kind = k := by
  refine ⟨List.mem_of_find?_eq_some hf, ?_⟩
  simpa using List.find?_some hf

theorem find_kind_head (first : Item) (rest : List Item) :
    (first :: rest).find? (fun item => decide (JSVal.str item.kind = JSVal.str first.kind)) =
      some first := by
  simp [List.find?_cons]

theorem ensureKind_nil (k : JSVal) : ensureKind [] k = k := rfl

theorem ensureKind_of_present {h : List Item} {k : JSVal}
    (hk : ∃ item ∈ h, JSVal.str item.kind = k) : ensureKind h k = k := by
  obtain ⟨item, hmem, hik⟩ := hk
  unfold ensureKind
  split
  · rfl
  · cases hf : h.find? (fun item => decide (JSVal.str item.kind = k)) with
    | some e => rfl
    | none => exact absurd hik (find_kind_eq_none.mp hf item hmem)

theorem ensureKind_of_absent {first : Item} {rest : List Item} {k : JSVal}
    (hk : ∀ item ∈ first :: rest, JSVal.str item.kind ≠ k) :
    ensureKind (first :: rest) k = JSVal.str first.kind := by
  unfold ensureKind
  rw [find_kind_eq_none.mpr hk]
  simp

/-- The guard `!stories.length === 0` of `ensureStory` never fires. -/
theorem ensureStory_eq (h : List Item) (k s : JSVal) :
    ensureStory h k s =
      match h.find? (fun item => decide (JSVal.str item.kind = k)) with
      | none => JSVal.null
      | some kindInfo =>
        if (JSVal.ofOption
            (kindInfo.stories.find? (fun item => decide (JSVal.str item = s)))).truthy then
          JSVal.ofOption (kindInfo.stories.find? (fun item => decide (JSVal.str item = s)))
        else JSVal.ofOption kindInfo.stories[0]? := by
  unfold ensureStory
  simp

theorem ensureStory_of_absent {h : List Item} {k : JSVal} (s : JSVal)
    (hk : ∀ item ∈ h, JSVal.str item.kind ≠ k) : ensureStory h k s = JSVal.null := by
  rw [ensureStory_eq, find_kind_eq_none.mpr hk]

theorem ensureStory_of_found {h : List Item} {k : JSVal} (s : JSVal) {e : Item}
    (hf : h.find? (fun item => decide (JSVal.str item.kind = k)) = some e) :
    ensureStory h k s =
      if (JSVal.ofOption (e.stories.find? (fun item => decide (JSVal.str item = s)))).truthy then
        JSVal.ofOption (e.stories.find? (fun item => decide (JSVal.str item = s)))
      else JSVal.ofOption e.stories[0]? := by
  rw [ensureStory_eq, hf]

theorem find_story_eq_none {l : List String} {s : JSVal} :
    l.find? (fun item => decide (JSVal.str item = s)) = none ↔ ∀ x ∈ l, JSVal.str x ≠ s := by
  simp [List.find?_eq_none]

theorem find_story_of_mem {l : List String} {x : String} (hx : x ∈ l) :
    l.find? (fun item => decide (JSVal.str item = JSVal.str x)) = some x := by
  induction l with
  | nil => cases hx
  | cons y ys ih =>
    by_cases hyx : y = x
    · subst hyx; simp [List.find?_cons]
    · have hx2 : x ∈ ys := by
        rcases List.mem_cons.mp hx with h1 | h1
        · exact absurd h1.symm hyx
        · exact h1
      have ih2 := ih hx2
      simp only [JSVal.str.injEq] at ih2
      simp only [List.find?_cons, JSVal.str.injEq, hyx, decide_False]
      exact ih2

/-- When the kind is found and the candidate is not in its list, the result is
the read `kindInfo.stories[0]`. -/
theorem ensureStory_of_story_absent {h : List Item} {k s : JSVal} {e : Item}
    (hf : h.find? (fun item => decide (JSVal.str item.kind = k)) = some e)
    (hs : ∀ x ∈ e.stories, JSVal.str x ≠ s) :
    ensureStory h k s = JSVal.ofOption e.stories[0]? := by
  rw [ensureStory_of_found s hf, find_story_eq_none.mpr hs]
  simp [JSVal.ofOption, JSVal.truthy]

/-- When the kind is found and the candidate is a non-empty string of its
list, the candidate is returned. -/
theorem ensureStory_of_story_present {h : List Item} {k : JSVal} {x : String} {e : Item}
    (hf : h.find? (fun item => decide (JSVal.str item.kind = k)) = some e)
    (hx : x ∈ e.stories) (hne : x ≠ "") :
    ensureStory h k (JSVal.str x) = JSVal.str x := by
  rw [ensureStory_of_found _ hf, find_story_of_mem hx]
  simp [JSVal.ofOption, JSVal.truthy, hne]

/-- When the kind is found, the result is a story of the found entry, or
`undefined` when that entry has no stories. -/
theorem ensureStory_found_cases {h : List Item} {k : JSVal} (s : JSVal) {e : Item}
    (hf : h.find? (fun item => decide (JSVal.str item.kind = k)) = some e) :
    (∃ x ∈ e.stories, ensureStory h k s = JSVal.str x) ∨
      (e.stories = [] ∧ ensureStory h k s = JSVal.undefined) := by
  rw [ensureStory_of_found s hf]
  split
  · next ht =>
    cases hfs : e.stories.find? (fun item => decide (JSVal.str item = s)) with
    | none => simp [hfs, JSVal.ofOption, JSVal.truthy] at ht
    | some x => exact Or.inl ⟨x, List.mem_of_find?_eq_some hfs, rfl⟩
  · cases hl : e.stories with
    | nil => exact Or.inr ⟨rfl, rfl⟩
    | cons y ys => exact Or.inl ⟨y, List.mem_cons_self y ys, by simp [JSVal.ofOption]⟩

/-! ## Auxiliary facts about the traversal -/

theorem inner_loop_eq_scanPairs (selK selS : JSVal) (kind : String) (stories : List String)
    (acc : JumpScan) :
    stories.foldl (jumpScanStory selK selS kind) acc =
      scanPairs selK selS acc (stories.map (fun story => { kind := kind, story := story })) := by
  unfold scanPairs
  rw [List.foldl_map]

theorem outer_loop_eq_scanPairs (selK selS : JSVal) (h : List Item) (acc : JumpScan) :
    h.foldl (fun acc item => item.stories.foldl (jumpScanStory selK selS item.kind) acc) acc =
      scanPairs selK selS acc (flattenStories h) := by
  induction h generalizing acc with
  | nil => rfl
  | cons item rest ih =>
    simp only [List.foldl_cons, flattenStories]
    rw [ih, inner_loop_eq_scanPairs]
    unfold scanPairs
    rw [List.foldl_append]

theorem scanPairs_cons (selK selS : JSVal) (acc : JumpScan) (p : FlatStory)
    (rest : List FlatStory) :
    scanPairs selK selS acc (p :: rest) =
      scanPairs selK selS (jumpScanStory selK selS p.kind acc p.story) rest := rfl

theorem scanPairs_append (selK selS : JSVal) (acc : JumpScan) (l₁ l₂ : List FlatStory) :
    scanPairs selK selS acc (l₁ ++ l₂) = scanPairs selK selS (scanPairs selK selS acc l₁) l₂ := by
  unfold scanPairs
  rw [List.foldl_append]

theorem jumpScanStory_flattered (selK selS : JSVal) (acc : JumpScan) (p : FlatStory) :
    (jumpScanStory selK selS p.kind acc p.story).flatteredStories =
      acc.flatteredStories ++ [p] := by
  unfold jumpScanStory
  split <;> rfl

theorem scanPairs_flattered (selK selS : JSVal) (acc : JumpScan) (l : List FlatStory) :
    (scanPairs selK selS acc l).flatteredStories = acc.flatteredStories ++ l := by
  induction l generalizing acc with
  | nil => simp [scanPairs]
  | cons p rest ih =>
    rw [scanPairs_cons, ih, jumpScanStory_flattered]
    simp

theorem scanPairs_index_of_no_match (selK selS : JSVal) (acc : JumpScan) (l : List FlatStory)
    (hno : ∀ q ∈ l, ¬ isSelection selK selS q) :
    (scanPairs selK selS acc l).currentIndex = acc.currentIndex := by
  induction l generalizing acc with
  | nil => rfl
  | cons p rest ih =>
    rw [scanPairs_cons, ih _ (fun q hq => hno q (List.mem_cons_of_mem _ hq))]
    have hp : ¬ (JSVal.str p.kind = selK ∧ JSVal.str p.story = selS) :=
      hno p (List.mem_cons_self _ _)
    unfold jumpScanStory
    simp only [hp, if_false]

theorem scanPairs_index_of_last_match (selK selS : JSVal) (acc : JumpScan)
    (pre : List FlatStory) (p : FlatStory) (post : List FlatStory)
    (hp : isSelection selK selS p) (hno : ∀ q ∈ post, ¬ isSelection selK selS q) :
    (scanPairs selK selS acc (pre ++ p :: post)).currentIndex =
      ((acc.flatteredStories.length + pre.length : Nat) : Int) := by
  rw [scanPairs_append, scanPairs_cons, scanPairs_index_of_no_match _ _ _ _ hno]
  have hp2 : JSVal.str p.kind = selK ∧ JSVal.str p.story = selS := hp
  unfold jumpScanStory
  simp only [hp2, and_self, if_true, scanPairs_flattered, List.length_append,
    List.length_singleton]
  push_cast
  ring

/-- The loops of `jumpToStory` build the flattened sequence. -/
theorem jumpScan_flattered (selK selS : JSVal) (h : List Item) :
    (jumpScan selK selS h).flatteredStories = flattenStories h := by
  unfold jumpScan
  rw [outer_loop_eq_scanPairs, scanPairs_flattered]
  rfl

/-- Without a pair equal to the selection, `currentIndex` stays `-1`. -/
theorem jumpScan_index_of_no_match (selK selS : JSVal) (h : List Item)
    (hno : ∀ q ∈ flattenStories h, ¬ isSelection selK selS q) :
    (jumpScan selK selS h).currentIndex = -1 := by
  unfold jumpScan
  rw [outer_loop_eq_scanPairs, scanPairs_index_of_no_match _ _ _ _ hno]

theorem split_at_index {l : List FlatStory} {i : Nat} {p : FlatStory} (hi : l[i]? = some p) :
    l = l.take i ++ p :: l.drop (i + 1) ∧ (l.take i).length = i := by
  obtain ⟨hlt, hp⟩ := List.getElem?_eq_some.mp hi
  refine ⟨?_, ?_⟩
  · rw [← hp, ← List.drop_eq_getElem_cons hlt, List.take_append_drop]
  · rw [List.length_take]
    omega

/-- After the loops, `currentIndex` is the index of the last pair that equals
the selection. -/
theorem jumpScan_index_of_last (selK selS : JSVal) (h : List Item) (i : Nat) (p : FlatStory)
    (hi : (flattenStories h)[i]? = some p) (hp : isSelection selK selS p)
    (hlast : ∀ j q, i < j → (flattenStories h)[j]? = some q → ¬ isSelection selK selS q) :
    (jumpScan selK selS h).currentIndex = (i : Int) := by
  obtain ⟨hsplit, hlen⟩ := split_at_index hi
  have hpost : ∀ q ∈ (flattenStories h).drop (i + 1), ¬ isSelection selK selS q := by
    intro q hq
    obtain ⟨n, hn⟩ := List.mem_iff_getElem?.mp hq
    rw [List.getElem?_drop] at hn
    exact hlast (i + 1 + n) q (by omega) hn
  unfold jumpScan
  rw [outer_loop_eq_scanPairs, hsplit, scanPairs_index_of_last_match _ _ _ _ _ _ hp hpost, hlen]
  simp

theorem isSelection_str_iff (p q : FlatStory) :
    isSelection (JSVal.str p.kind) (JSVal.str p.story) q ↔ q = p := by
  unfold isSelection
  cases p
  cases q
  simp

theorem arrayGet_of_nonneg {α : Type} (xs : List α) (i : Int) (hi : 0 ≤ i) :
    arrayGet xs i = xs[i.toNat]? := by
  unfold arrayGet
  simp [not_lt.mpr hi]

theorem arrayGet_of_neg {α : Type} (xs : List α) (i : Int) (hi : i < 0) :
    arrayGet xs i = none := by
  unfold arrayGet
  simp [hi]

theorem arrayGet_of_length_le {α : Type} (xs : List α) (i : Int) (hi : (xs.length : Int) ≤ i) :
    arrayGet xs i = none := by
  unfold arrayGet
  split
  · rfl
  · apply List.getElem?_eq_none
    omega

theorem arrayGet_mem {α : Type} {xs : List α} {i : Int} {x : α} (hx : arrayGet xs i = some x) :
    x ∈ xs := by
  unfold arrayGet at hx
  split at hx
  · cases hx
  · exact List.mem_iff_getElem?.mpr ⟨_, hx⟩

/-- A pair of the flattened sequence comes from an entry of the hierarchy. -/
theorem mem_flattenStories {h : List Item} {q : FlatStory} (hq : q ∈ flattenStories h) :
    ∃ e ∈ h, e.kind = q.kind ∧ q.story ∈ e.stories := by
  induction h with
  | nil => cases hq
  | cons item rest ih =>
    simp only [flattenStories, List.mem_append, List.mem_map] at hq
    rcases hq with ⟨story, hmem, rfl⟩ | hq
    · exact ⟨item, List.mem_cons_self _ _, rfl, hmem⟩
    · obtain ⟨e, he, hk, hs⟩ := ih hq
      exact ⟨e, List.mem_cons_of_mem _ he, hk, hs⟩

/-- The three outcomes of `jumpToStory`, in terms of `currentIndex`. -/
theorem jumpToStory_eq (direction : Int) (s : Store) :
    jumpToStory direction s =
      match arrayGet (flattenStories s.stories)
          ((jumpScan s.selectedKind s.selectedStory s.stories).currentIndex + direction) with
      | none => s
      | some jumpedStory =>
        { s with selectedKind := JSVal.str jumpedStory.kind
                 selectedStory := JSVal.str jumpedStory.story } := by
  unfold jumpToStory
  simp only [jumpScan_flattered]

/-! ## The reconciler: `ensureKind` and `ensureStory` -/

/-- C2: `ensureKind h k` is `k` when `h` is empty, is `k` when some entry of
`h` has kind `k`, and is the kind of the first entry of `h` when `h` is not
empty and no entry has kind `k`. -/
theorem ensureKind_spec (h : List Item) (k : JSVal) :
    (h = [] → ensureKind h k = k) ∧
    ((∃ item ∈ h, JSVal.str item.kind = k) → ensureKind h k = k) ∧
    (∀ first rest, h = first :: rest → (∀ item ∈ h, JSVal.str item.kind ≠ k) →
      ensureKind h k = JSVal.str first.kind) := by
  refine ⟨?_, ?_, ?_⟩
  · rintro rfl
    exact ensureKind_nil k
  · exact ensureKind_of_present
  · rintro first rest rfl hk
    exact ensureKind_of_absent hk

/-- C2, at concrete inputs: the empty hierarchy, a kind that is present and a
kind that is absent. -/
theorem ensureKind_spec_witness :
    ensureKind [] (JSVal.str "Z") = JSVal.str "Z" ∧
    ensureKind hierarchyAB (JSVal.str "B") = JSVal.str "B" ∧
    ensureKind hierarchyAB (JSVal.str "Z") = JSVal.str "A" :=
  ⟨(ensureKind_spec [] (JSVal.str "Z")).1 rfl,
   (ensureKind_spec hierarchyAB (JSVal.str "B")).2.1
     ⟨{ kind := "B", stories := ["b1"] }, by decide, rfl⟩,
   (ensureKind_spec hierarchyAB (JSVal.str "Z")).2.2
     { kind := "A", stories := ["a1", "a2"] } [{ kind := "B", stories := ["b1"] }] rfl
     (by decide)⟩

/-- C3, evaluated at a failing input: the kind `"A"` is present, the empty
string is the second story of its entry, and `ensureStory` returns the first
story `"a"` instead of the candidate `""`. -/
theorem ensureStory_empty_string_candidate :
    [({ kind := "A", stories := ["a", ""] } : Item)].find?
        (fun item => decide (JSVal.str item.kind = JSVal.str "A")) =
      some { kind := "A", stories := ["a", ""] } ∧
    "" ∈ ["a", ""] ∧
    ensureStory [{ kind := "A", stories := ["a", ""] }] (JSVal.str "A") (JSVal.str "") =
      JSVal.str "a" ∧
    ensureStory [{ kind := "A", stories := ["a", ""] }] (JSVal.str "A") (JSVal.str "") ≠
      JSVal.str "" := by
  decide

/-- C4: when no entry of `h` has kind `k`, in particular when `h` is empty,
`ensureStory h k s` is `null`; when `e` is the entry that the lookup of `k`
finds and `s` is not in the story list of `e`, the result is the first story
of that list, and `undefined` when the list is empty. -/
theorem ensureStory_fallback (h : List Item) (k s : JSVal) :
    ((∀ item ∈ h, JSVal.str item.kind ≠ k) → ensureStory h k s = JSVal.null) ∧
    (h = [] → ensureStory h k s = JSVal.null) ∧
    (∀ e, h.find? (fun item => decide (JSVal.str item.kind = k)) = some e →
      (∀ x ∈ e.stories, JSVal.str x ≠ s) →
        (e.stories = [] → ensureStory h k s = JSVal.undefined) ∧
        (∀ x rest, e.stories = x :: rest → ensureStory h k s = JSVal.str x)) := by
  refine ⟨ensureStory_of_absent s, ?_, ?_⟩
  · rintro rfl
    exact ensureStory_of_absent s (by simp)
  · intro e hf hs
    have hres := ensureStory_of_story_absent hf hs
    refine ⟨?_, ?_⟩
    · intro hnil
      rw [hres, hnil]
      rfl
    · intro x rest hcons
      rw [hres, hcons]
      simp [JSVal.ofOption]

/-- C4, at concrete inputs: an absent kind, the empty hierarchy, a kind without
stories and a kind whose list lacks the candidate. -/
theorem ensureStory_fallback_witness :
    ensureStory hierarchyAB (JSVal.str "Z") (JSVal.str "a1") = JSVal.null ∧
    ensureStory [] (JSVal.str "A") (JSVal.str "a1") = JSVal.null ∧
    ensureStory [{ kind := "A", stories := [] }] (JSVal.str "A") (JSVal.str "a1") =
      JSVal.undefined ∧
    ensureStory hierarchyAB (JSVal.str "A") (JSVal.str "zz") = JSVal.str "a1" :=
  ⟨(ensureStory_fallback hierarchyAB (JSVal.str "Z") (JSVal.str "a1")).1 (by decide),
   (ensureStory_fallback [] (JSVal.str "A") (JSVal.str "a1")).2.1 rfl,
   ((ensureStory_fallback [{ kind := "A", stories := [] }] (JSVal.str "A")
      (JSVal.str "a1")).2.2 { kind := "A", stories := [] } (by decide) (by decide)).1 rfl,
   ((ensureStory_fallback hierarchyAB (JSVal.str "A") (JSVal.str "zz")).2.2
      { kind := "A", stories := ["a1", "a2"] } (by decide) (by decide)).2 "a1" ["a2"] rfl⟩

/-! ## `setStories` -/

/-- C5: `setStories h` stores `h`, reconciles the kind with `ensureKind`,
reconciles the story with `ensureStory` from the previous story when the kind
is kept and from `null` otherwise, and touches no other field; when `h` is not
empty and lacks the previous kind, the selection becomes the first kind of `h`
with the first story of that entry, whatever the previous story was. -/
theorem setStories_spec (s : Store) (h : List Item) :
    setStories h s =
      { s with
        stories := h
        selectedKind := ensureKind h s.selectedKind
        selectedStory :=
          ensureStory h (ensureKind h s.selectedKind)
            (if ensureKind h s.selectedKind = s.selectedKind then s.selectedStory
             else JSVal.null) } ∧
    (∀ first rest, h = first :: rest → (∀ item ∈ h, JSVal.str item.kind ≠ s.selectedKind) →
      (setStories h s).selectedKind = JSVal.str first.kind ∧
      (setStories h s).selectedStory = JSVal.ofOption first.stories.head?) := by
  have hdef : setStories h s =
      { s with
        stories := h
        selectedKind := ensureKind h s.selectedKind
        selectedStory :=
          ensureStory h (ensureKind h s.selectedKind)
            (if ensureKind h s.selectedKind = s.selectedKind then s.selectedStory
             else JSVal.null) } := by
    unfold setStories
    by_cases hk : ensureKind h s.selectedKind = s.selectedKind
    · simp [hk]
    · have hk2 : ¬ s.selectedKind = ensureKind h s.selectedKind := fun hh => hk hh.symm
      simp [hk, hk2]
  refine ⟨hdef, ?_⟩
  rintro first rest rfl hk
  have hkind : ensureKind (first :: rest) s.selectedKind = JSVal.str first.kind :=
    ensureKind_of_absent hk
  have hne : ¬ JSVal.str first.kind = s.selectedKind := hk first (List.mem_cons_self _ _)
  rw [hdef]
  refine ⟨hkind, ?_⟩
  simp only [hkind, hne, if_false]
  rw [ensureStory_of_story_absent (find_kind_head first rest) (by simp)]
  cases first.stories <;> simp

/-- C5, at the example of the specification: the selection `("A", "a2")` and a
new hierarchy that lacks `"A"` and has `"B"` with stories `["b1", "b2"]`. -/
theorem setStories_spec_witness :
    (setStories hierarchyB (storeWith hierarchyAB (JSVal.str "A") (JSVal.str "a2"))).selectedKind =
      JSVal.str "B" ∧
    (setStories hierarchyB (storeWith hierarchyAB (JSVal.str "A") (JSVal.str "a2"))).selectedStory =
      JSVal.ofOption (some "b1") :=
  (setStories_spec (storeWith hierarchyAB (JSVal.str "A") (JSVal.str "a2")) hierarchyB).2
    { kind := "B", stories := ["b1", "b2"] } [] rfl (by decide)

/-! ## `jumpToStory` -/

/-- C6: when the selection is the pair at index `i` of the flattened sequence
and at no other index, and `0 ≤ i + d < length`, `jumpToStory d` sets the
selection to the pair at index `i + d` and changes no other field. -/
theorem jumpToStory_in_bounds (s : Store) (i : Nat) (p : FlatStory) (d : Int)
    (hk : s.selectedKind = JSVal.str p.kind) (hs : s.selectedStory = JSVal.str p.story)
    (hi : (flattenStories s.stories)[i]? = some p)
    (honce : ∀ j, (flattenStories s.stories)[j]? = some p → j = i)
    (hlo : 0 ≤ (i : Int) + d) (hhi : (i : Int) + d < ((flattenStories s.stories).length : Int)) :
    ∃ q, (flattenStories s.stories)[((i : Int) + d).toNat]? = some q ∧
      jumpToStory d s =
        { s with selectedKind := JSVal.str q.kind, selectedStory := JSVal.str q.story } := by
  have hidx : (jumpScan s.selectedKind s.selectedStory s.stories).currentIndex = (i : Int) := by
    apply jumpScan_index_of_last _ _ _ i p hi
    · rw [hk, hs]
      exact (isSelection_str_iff p p).mpr rfl
    · intro j q hij hj hq
      rw [hk, hs] at hq
      have hqp : q = p := (isSelection_str_iff p q).mp hq
      have := honce j (hqp ▸ hj)
      omega
  have hlt : ((i : Int) + d).toNat < (flattenStories s.stories).length := by omega
  refine ⟨(flattenStories s.stories)[((i : Int) + d).toNat], List.getElem?_eq_getElem hlt, ?_⟩
  rw [jumpToStory_eq, hidx, arrayGet_of_nonneg _ _ hlo, List.getElem?_eq_getElem hlt]

/-- C6, at the example of the specification: over `[A:[a1,a2], B:[b1]]` with
the selection `(A, a2)`, `jumpToStory 1` yields `(B, b1)`. -/
theorem jumpToStory_in_bounds_witness :
    jumpToStory 1 (storeWith hierarchyAB (JSVal.str "A") (JSVal.str "a2")) =
      storeWith hierarchyAB (JSVal.str "B") (JSVal.str "b1") := by
  obtain ⟨q, hq, hjump⟩ :=
    jumpToStory_in_bounds (storeWith hierarchyAB (JSVal.str "A") (JSVal.str "a2")) 1
      { kind := "A", story := "a2" } 1 rfl rfl (by decide)
      (by
        intro j hj
        rcases j with _ | _ | _ | j
        · exact absurd hj (by decide)
        · rfl
        · exact absurd hj (by decide)
        · exact absurd hj (by simp [storeWith, hierarchyAB, flattenStories]))
      (by decide) (by decide)
  have hq2 : q = { kind := "B", story := "b1" } := by
    have h2 : (flattenStories (storeWith hierarchyAB (JSVal.str "A") (JSVal.str "a2")).stories)[
        ((1 : Nat) + (1 : Int)).toNat]? = some { kind := "B", story := "b1" } := by decide
    rw [h2] at hq
    exact (Option.some.inj hq).symm
  rw [hjump, hq2]
  rfl

/-- C7 fails as stated: over `[A:[a,b], A:[a]]` the selection `(A, a)` occurs
at index `0` of the flattened sequence and `0 + (-1)` is negative, yet
`jumpToStory (-1)` moves the selection to `(A, b)`. -/
theorem jump_from_first_occurrence_moves :
    (flattenStories hierarchyAA)[0]? = some { kind := "A", story := "a" } ∧
    ((0 : Nat) : Int) + (-1) < 0 ∧
    (jumpToStory (-1) (storeWith hierarchyAA (JSVal.str "A") (JSVal.str "a"))).selectedStory =
      JSVal.str "b" ∧
    jumpToStory (-1) (storeWith hierarchyAA (JSVal.str "A") (JSVal.str "a")) ≠
      storeWith hierarchyAA (JSVal.str "A") (JSVal.str "a") := by
  decide

/-- C7, amended: when `i` is the last index at which the selection occurs in
the flattened sequence (in particular when it occurs only once) and `i + d` is
negative or at least the length, `jumpToStory d` leaves the whole state
unchanged. -/
theorem jumpToStory_out_of_bounds (s : Store) (i : Nat) (p : FlatStory) (d : Int)
    (hk : s.selectedKind = JSVal.str p.kind) (hs : s.selectedStory = JSVal.str p.story)
    (hi : (flattenStories s.stories)[i]? = some p)
    (hlast : ∀ j, i < j → (flattenStories s.stories)[j]? ≠ some p)
    (hout : (i : Int) + d < 0 ∨ ((flattenStories s.stories).length : Int) ≤ (i : Int) + d) :
    jumpToStory d s = s := by
  have hidx : (jumpScan s.selectedKind s.selectedStory s.stories).currentIndex = (i : Int) := by
    apply jumpScan_index_of_last _ _ _ i p hi
    · rw [hk, hs]
      exact (isSelection_str_iff p p).mpr rfl
    · intro j q hij hj hq
      rw [hk, hs] at hq
      have hqp : q = p := (isSelection_str_iff p q).mp hq
      exact hlast j hij (hqp ▸ hj)
  rw [jumpToStory_eq, hidx]
  rcases hout with hneg | hbig
  · rw [arrayGet_of_neg _ _ hneg]
  · rw [arrayGet_of_length_le _ _ hbig]

/-- C7 amended, at concrete inputs: over `[A:[a1,a2], B:[b1]]`, `jumpToStory 1`
at the last pair and `jumpToStory (-1)` at the first pair change nothing. -/
theorem jumpToStory_out_of_bounds_witness :
    jumpToStory 1 (storeWith hierarchyAB (JSVal.str "B") (JSVal.str "b1")) =
      storeWith hierarchyAB (JSVal.str "B") (JSVal.str "b1") ∧
    jumpToStory (-1) (storeWith hierarchyAB (JSVal.str "A") (JSVal.str "a1")) =
      storeWith hierarchyAB (JSVal.str "A") (JSVal.str "a1") :=
  ⟨jumpToStory_out_of_bounds (storeWith hierarchyAB (JSVal.str "B") (JSVal.str "b1")) 2
      { kind := "B", story := "b1" } 1 rfl rfl (by decide)
      (by
        intro j hj
        have h3 : (flattenStories (storeWith hierarchyAB (JSVal.str "B")
            (JSVal.str "b1")).stories).length = 3 := by decide
        rw [List.getElem?_eq_none (by omega)]
        simp)
      (Or.inr (by decide)),
   jumpToStory_out_of_bounds (storeWith hierarchyAB (JSVal.str "A") (JSVal.str "a1")) 0
      { kind := "A", story := "a1" } (-1) rfl rfl (by decide)
      (by
        intro j hj
        rcases j with _ | _ | _ | j
        · omega
        · decide
        · decide
        · simp [storeWith, hierarchyAB, flattenStories])
      (Or.inl (by decide))⟩

/-- C8 fails as stated: in the state reached by `setStories` with
`[A:[], B:[b1]]`, and in the initial state put over `[A:[a1,a2], B:[b1]]`, the
selection equals no pair of the flattened sequence, yet `jumpToStory 1` selects
the first pair. -/
theorem jump_without_selection_moves :
    (setStories hierarchyEmptyA initialStore).selectedKind = JSVal.str "A" ∧
    (setStories hierarchyEmptyA initialStore).selectedStory = JSVal.undefined ∧
    (∀ q ∈ flattenStories (setStories hierarchyEmptyA initialStore).stories,
      ¬ (JSVal.str q.kind = (setStories hierarchyEmptyA initialStore).selectedKind ∧
         JSVal.str q.story = (setStories hierarchyEmptyA initialStore).selectedStory)) ∧
    (jumpToStory 1 (setStories hierarchyEmptyA initialStore)).selectedKind = JSVal.str "B" ∧
    (jumpToStory 1 (setStories hierarchyEmptyA initialStore)).selectedStory = JSVal.str "b1" ∧
    (∀ q ∈ flattenStories hierarchyAB,
      ¬ (JSVal.str q.kind = JSVal.undefined ∧ JSVal.str q.story = JSVal.undefined)) ∧
    (jumpToStory 1 (storeWith hierarchyAB JSVal.undefined JSVal.undefined)).selectedKind =
      JSVal.str "A" ∧
    (jumpToStory 1 (storeWith hierarchyAB JSVal.undefined JSVal.undefined)).selectedStory =
      JSVal.str "a1" := by
  decide

/-- C8, amended: when the selection equals no pair of the flattened sequence,
`jumpToStory d` is a no-op for every `d ≤ 0` and every `d` greater than the
length, and for `1 ≤ d ≤ length` it selects the pair at index `d - 1`, changing
no other field. -/
theorem jumpToStory_unselected (s : Store) (d : Int)
    (hno : ∀ q ∈ flattenStories s.stories,
      ¬ (JSVal.str q.kind = s.selectedKind ∧ JSVal.str q.story = s.selectedStory)) :
    ((d ≤ 0 ∨ ((flattenStories s.stories).length : Int) < d) → jumpToStory d s = s) ∧
    (0 < d → d ≤ ((flattenStories s.stories).length : Int) →
      ∃ q, (flattenStories s.stories)[(d - 1).toNat]? = some q ∧
        jumpToStory d s =
          { s with selectedKind := JSVal.str q.kind, selectedStory := JSVal.str q.story }) := by
  have hidx : (jumpScan s.selectedKind s.selectedStory s.stories).currentIndex = -1 :=
    jumpScan_index_of_no_match _ _ _ hno
  have hsum : (-1 : Int) + d = d - 1 := by ring
  refine ⟨?_, ?_⟩
  · intro hout
    rw [jumpToStory_eq, hidx, hsum]
    rcases hout with hneg | hbig
    · rw [arrayGet_of_neg _ _ (by omega)]
    · rw [arrayGet_of_length_le _ _ (by omega)]
  · intro hpos hle
    have hlt : (d - 1).toNat < (flattenStories s.stories).length := by omega
    refine ⟨(flattenStories s.stories)[(d - 1).toNat], List.getElem?_eq_getElem hlt, ?_⟩
    rw [jumpToStory_eq, hidx, hsum, arrayGet_of_nonneg _ _ (by omega),
      List.getElem?_eq_getElem hlt]

/-- C8 amended, at concrete inputs: from the state without selection over
`[A:[a1,a2], B:[b1]]`, `jumpToStory (-1)` changes nothing and `jumpToStory 1`
selects the pair at index `0`. -/
theorem jumpToStory_unselected_witness :
    jumpToStory (-1) (storeWith hierarchyAB JSVal.undefined JSVal.undefined) =
      storeWith hierarchyAB JSVal.undefined JSVal.undefined ∧
    ∃ q, (flattenStories hierarchyAB)[0]? = some q ∧
      jumpToStory 1 (storeWith hierarchyAB JSVal.undefined JSVal.undefined) =
        storeWith hierarchyAB (JSVal.str q.kind) (JSVal.str q.story) :=
  ⟨(jumpToStory_unselected (storeWith hierarchyAB JSVal.undefined JSVal.undefined) (-1)
      (by decide)).1 (Or.inl (by decide)),
   (jumpToStory_unselected (storeWith hierarchyAB JSVal.undefined JSVal.undefined) 1
      (by decide)).2 (by decide) (by decide)⟩

/-! ## `handleEvent` -/

/-- The selection moves of `jumpToStory` leave the shortcut flags alone. -/
theorem jumpToStory_shortcutOptions (d : Int) (s : Store) :
    (jumpToStory d s).shortcutOptions = s.shortcutOptions := by
  rw [jumpToStory_eq]
  split <;> rfl

/-- C9: when `enableShortcuts` is falsy, in particular when it is `false`,
`handleEvent` returns the state unchanged for every event and every value of
the event constants. -/
theorem handleEvent_disabled (features : Features) (event : JSVal) (s : Store)
    (hoff : s.shortcutOptions.enableShortcuts.truthy = false) :
    handleEvent features event s = s := by
  unfold handleEvent
  simp [hoff]

/-- C9, at a concrete input: the initial state with `enableShortcuts` set to
`false` and the event `FULLSCREEN`. -/
theorem handleEvent_disabled_witness :
    handleEvent namedFeatures namedFeatures.FULLSCREEN
        { initialStore with
          shortcutOptions := { initialStore.shortcutOptions with
            enableShortcuts := JSVal.bool false } } =
      { initialStore with
        shortcutOptions := { initialStore.shortcutOptions with
          enableShortcuts := JSVal.bool false } } :=
  handleEvent_disabled namedFeatures namedFeatures.FULLSCREEN
    { initialStore with
      shortcutOptions := { initialStore.shortcutOptions with
        enableShortcuts := JSVal.bool false } } rfl

/-- C10: with `enableShortcuts` truthy and pairwise different event constants,
`FULLSCREEN` negates `full`, `STORIES_PANEL` negates `nav`, `ADDON_PANEL` turns
`'right'` and `'bottom'` into `false` and `false` into `'right'`,
`ADDON_PANEL_IN_RIGHT` turns `'bottom'` into `'right'` and anything else into
`'bottom'`, each leaving the other flags as they were; `NEXT_STORY`,
`PREV_STORY`, `SHOW_SEARCH` and every other event leave the four flags
unchanged; and no event changes `enableShortcuts`. -/
theorem handleEvent_flags (features : Features) (s : Store)
    (hon : s.shortcutOptions.enableShortcuts.truthy = true) (hd : features.distinct) :
    (handleEvent features features.FULLSCREEN s).shortcutOptions =
      { s.shortcutOptions with full := JSVal.bool (!s.shortcutOptions.full.truthy) } ∧
    (handleEvent features features.STORIES_PANEL s).shortcutOptions =
      { s.shortcutOptions with nav := JSVal.bool (!s.shortcutOptions.nav.truthy) } ∧
    ((s.shortcutOptions.panel = JSVal.str "right" ∨ s.shortcutOptions.panel = JSVal.str "bottom") →
      (handleEvent features features.ADDON_PANEL s).shortcutOptions =
        { s.shortcutOptions with panel := JSVal.bool false }) ∧
    (s.shortcutOptions.panel = JSVal.bool false →
      (handleEvent features features.ADDON_PANEL s).shortcutOptions =
        { s.shortcutOptions with panel := JSVal.str "right" }) ∧
    (s.shortcutOptions.panel = JSVal.str "bottom" →
      (handleEvent features features.ADDON_PANEL_IN_RIGHT s).shortcutOptions =
        { s.shortcutOptions with panel := JSVal.str "right" }) ∧
    (s.shortcutOptions.panel ≠ JSVal.str "bottom" →
      (handleEvent features features.ADDON_PANEL_IN_RIGHT s).shortcutOptions =
        { s.shortcutOptions with panel := JSVal.str "bottom" }) ∧
    (handleEvent features features.NEXT_STORY s).shortcutOptions = s.shortcutOptions ∧
    (handleEvent features features.PREV_STORY s).shortcutOptions = s.shortcutOptions ∧
    (handleEvent features features.SHOW_SEARCH s).shortcutOptions = s.shortcutOptions ∧
    (∀ event,
      event ∉ [features.NEXT_STORY, features.PREV_STORY, features.FULLSCREEN,
        features.ADDON_PANEL, features.STORIES_PANEL, features.SHOW_SEARCH,
        features.ADDON_PANEL_IN_RIGHT] →
      (handleEvent features event s).shortcutOptions = s.shortcutOptions) ∧
    (∀ event,
      (handleEvent features event s).shortcutOptions.enableShortcuts =
        s.shortcutOptions.enableShortcuts) := by
  simp only [Features.distinct, List.nodup_cons, List.mem_cons, List.mem_singleton, not_or,
    List.not_mem_nil, not_false_eq_true, List.nodup_nil, and_true, or_false] at hd
  obtain ⟨⟨h12, h13, h14, h15, h16, h17⟩, ⟨h23, h24, h25, h26, h27⟩, ⟨h34, h35, h36, h37⟩,
    ⟨h45, h46, h47⟩, ⟨h56, h57⟩, h67⟩ := hd
  refine ⟨?_, ?_, ?_, ?_, ?_, ?_, ?_, ?_, ?_, ?_, ?_⟩
  · unfold handleEvent
    simp [hon, Ne.symm h13, Ne.symm h23]
  · unfold handleEvent
    simp [hon, Ne.symm h15, Ne.symm h25, Ne.symm h35, Ne.symm h45]
  · intro hp
    have ht : s.shortcutOptions.panel.truthy = true := by
      rcases hp with hp | hp <;> rw [hp] <;> decide
    unfold handleEvent
    simp [hon, Ne.symm h14, Ne.symm h24, Ne.symm h34, ht]
  · intro hp
    have ht : s.shortcutOptions.panel.truthy = false := by
      rw [hp]
      rfl
    unfold handleEvent
    simp [hon, Ne.symm h14, Ne.symm h24, Ne.symm h34, ht]
  · intro hp
    unfold handleEvent
    simp [hon, Ne.symm h17, Ne.symm h27, Ne.symm h37, Ne.symm h47, Ne.symm h57, Ne.symm h67, hp]
  · intro hp
    unfold handleEvent
    simp [hon, Ne.symm h17, Ne.symm h27, Ne.symm h37, Ne.symm h47, Ne.symm h57, Ne.symm h67, hp]
  · unfold handleEvent
    simp [hon, jumpToStory_shortcutOptions]
  · unfold handleEvent
    simp [hon, Ne.symm h12, jumpToStory_shortcutOptions]
  · unfold handleEvent
    simp [hon, Ne.symm h16, Ne.symm h26, Ne.symm h36, Ne.symm h46, Ne.symm h56, toggleSearchBox]
  · intro event hev
    simp only [List.mem_cons, List.mem_singleton, not_or, List.not_mem_nil, or_false] at hev
    obtain ⟨e1, e2, e3, e4, e5, e6, e7⟩ := hev
    unfold handleEvent
    simp [hon, e1, e2, e3, e4, e5, e6, e7]
  · intro event
    unfold handleEvent
    simp only [hon, Bool.not_true, Bool.false_eq_true, if_false]
    split_ifs <;> simp [jumpToStory_shortcutOptions, toggleSearchBox]

/-- C10, at a concrete input: the initial state (shortcuts enabled, panel
`'right'`) with every event constant equal to the string of its name. -/
theorem handleEvent_flags_witness :
    (handleEvent namedFeatures namedFeatures.FULLSCREEN initialStore).shortcutOptions =
      { initialStore.shortcutOptions with full := JSVal.bool true } ∧
    (handleEvent namedFeatures namedFeatures.ADDON_PANEL initialStore).shortcutOptions =
      { initialStore.shortcutOptions with panel := JSVal.bool false } ∧
    (handleEvent namedFeatures namedFeatures.ADDON_PANEL_IN_RIGHT initialStore).shortcutOptions =
      { initialStore.shortcutOptions with panel := JSVal.str "bottom" } ∧
    (handleEvent namedFeatures (JSVal.str "ESCAPE") initialStore).shortcutOptions =
      initialStore.shortcutOptions :=
  ⟨(handleEvent_flags namedFeatures initialStore rfl (by decide)).1,
   (handleEvent_flags namedFeatures initialStore rfl (by decide)).2.2.1 (Or.inl rfl),
   (handleEvent_flags namedFeatures initialStore rfl (by decide)).2.2.2.2.2.1 (by decide),
   (handleEvent_flags namedFeatures initialStore rfl (by decide)).2.2.2.2.2.2.2.2.2.1
     (JSVal.str "ESCAPE") (by decide)⟩

/-! ## The selection across sequences of calls -/

theorem find_kind_of_present {h : List Item} {k : JSVal}
    (hk : ∃ e ∈ h, JSVal.str e.kind = k) :
    ∃ e, h.find? (fun item => decide (JSVal.str item.kind = k)) = some e := by
  cases hf : h.find? (fun item => decide (JSVal.str item.kind = k)) with
  | some e => exact ⟨e, rfl⟩
  | none =>
    obtain ⟨e, he, hek⟩ := hk
    exact absurd hek (find_kind_eq_none.mp hf e he)

/-- Over a non-empty hierarchy `ensureKind` returns the kind of an entry. -/
theorem ensureKind_present {h : List Item} (hne : h ≠ []) (k : JSVal) :
    ∃ e ∈ h, JSVal.str e.kind = ensureKind h k := by
  by_cases hk : ∃ e ∈ h, JSVal.str e.kind = k
  · rw [ensureKind_of_present hk]
    exact hk
  · cases h with
    | nil => exact absurd rfl hne
    | cons first rest =>
      have hall : ∀ item ∈ first :: rest, JSVal.str item.kind ≠ k :=
        fun item hmem heq => hk ⟨item, hmem, heq⟩
      rw [ensureKind_of_absent hall]
      exact ⟨first, List.mem_cons_self _ _, rfl⟩

/-- For a kind of the hierarchy, `ensureStory` returns a story of an entry of
that kind, or `undefined` when the first entry of that kind has no stories. -/
theorem ensureStory_reconciled {h : List Item} {k : JSVal} (c : JSVal)
    (hk : ∃ e ∈ h, JSVal.str e.kind = k) :
    (∃ e ∈ h, JSVal.str e.kind = k ∧ ∃ x ∈ e.stories, JSVal.str x = ensureStory h k c) ∨
    (∃ e, h.find? (fun item => decide (JSVal.str item.kind = k)) = some e ∧
      e.stories = [] ∧ ensureStory h k c = JSVal.undefined) := by
  obtain ⟨e, hf⟩ := find_kind_of_present hk
  obtain ⟨hmem, hek⟩ := find_kind_some hf
  rcases ensureStory_found_cases c hf with ⟨x, hx, hres⟩ | ⟨hnil, hres⟩
  · exact Or.inl ⟨e, hmem, hek, x, hx, hres.symm⟩
  · exact Or.inr ⟨e, hf, hnil, hres⟩

theorem kind_present_of_reconciled {s : Store} (hs : SelectionReconciled s)
    (hne : s.stories ≠ []) : ∃ e ∈ s.stories, JSVal.str e.kind = s.selectedKind := by
  rcases hs with hnil | ⟨e, he, hk, _⟩ | ⟨e, hf, _, _⟩
  · exact absurd hnil hne
  · exact ⟨e, he, hk⟩
  · exact ⟨e, (find_kind_some hf).1, (find_kind_some hf).2⟩

theorem setStories_reconciled (h : List Item) (s : Store) :
    SelectionReconciled (setStories h s) := by
  by_cases hne : h = []
  · exact Or.inl hne
  · exact Or.inr (ensureStory_reconciled _ (ensureKind_present hne s.selectedKind))

theorem selectStory_reconciled (kind story : JSVal) (s : Store) :
    SelectionReconciled (selectStory kind story s) := by
  by_cases hne : s.stories = []
  · exact Or.inl hne
  · exact Or.inr (ensureStory_reconciled _ (ensureKind_present hne kind))

theorem selectInCurrentKind_reconciled (story : JSVal) (s : Store)
    (hs : SelectionReconciled s) : SelectionReconciled (selectInCurrentKind story s) := by
  by_cases hne : s.stories = []
  · exact Or.inl hne
  · have hk : ∃ e ∈ s.stories, JSVal.str e.kind = s.selectedKind :=
      kind_present_of_reconciled hs hne
    exact Or.inr (ensureStory_reconciled story hk)

theorem jumpToStory_reconciled (d : Int) (s : Store) (hs : SelectionReconciled s) :
    SelectionReconciled (jumpToStory d s) := by
  rw [jumpToStory_eq]
  cases hget : arrayGet (flattenStories s.stories)
      ((jumpScan s.selectedKind s.selectedStory s.stories).currentIndex + d) with
  | none => exact hs
  | some q =>
    obtain ⟨e, he, hk, hx⟩ := mem_flattenStories (arrayGet_mem hget)
    exact Or.inr (Or.inl ⟨e, he, by rw [hk], q.story, hx, rfl⟩)

theorem apply_reconciled (call : SelectionCall) (s : Store) (hs : SelectionReconciled s) :
    SelectionReconciled (call.apply s) := by
  cases call with
  | setStories stories => exact setStories_reconciled stories s
  | selectStory kind story => exact selectStory_reconciled kind story s
  | selectInCurrentKind story => exact selectInCurrentKind_reconciled story s hs
  | jumpToStory direction => exact jumpToStory_reconciled direction s hs

theorem runCalls_reconciled (calls : List SelectionCall) (s : Store)
    (hs : SelectionReconciled s) : SelectionReconciled (runCalls calls s) := by
  induction calls generalizing s with
  | nil => exact hs
  | cons call rest ih => exact ih (call.apply s) (apply_reconciled call s hs)

/-- C1 fails as stated: from the initial state, `selectStory("X", "y")` leaves
the selection `("X", null)` over the empty hierarchy, and
`setStories([{kind: "A", stories: []}])` leaves the selection
`("A", undefined)`; neither is `(none, none)` nor a kind with one of its
stories. -/
theorem selection_not_valid_after_call :
    (runCalls [SelectionCall.selectStory (JSVal.str "X") (JSVal.str "y")]
        initialStore).selectedKind = JSVal.str "X" ∧
    (runCalls [SelectionCall.selectStory (JSVal.str "X") (JSVal.str "y")]
        initialStore).selectedStory = JSVal.null ∧
    ¬ SelectionValid
        (runCalls [SelectionCall.selectStory (JSVal.str "X") (JSVal.str "y")] initialStore) ∧
    (runCalls [SelectionCall.setStories [{ kind := "A", stories := [] }]]
        initialStore).selectedKind = JSVal.str "A" ∧
    (runCalls [SelectionCall.setStories [{ kind := "A", stories := [] }]]
        initialStore).selectedStory = JSVal.undefined ∧
    ¬ SelectionValid
        (runCalls [SelectionCall.setStories [{ kind := "A", stories := [] }]] initialStore) := by
  decide

/-- C1, amended: from the initial state, after every finite sequence of
`setStories`, `selectStory`, `selectInCurrentKind` and `jumpToStory` calls, the
hierarchy is empty, or `selectedKind` is the kind of an entry and
`selectedStory` is a story of that entry, or `selectedKind` is a kind whose
first entry has no stories and `selectedStory` is `undefined`. -/
theorem selection_reconciled_after_calls (calls : List SelectionCall) :
    SelectionReconciled (runCalls calls initialStore) :=
  runCalls_reconciled calls initialStore (Or.inl rfl)

/-! ## Auxiliary facts about objects -/

theorem objGet?_objSet (o : Obj) (key : String) (v : JSVal) (k : String) :
    objGet? (objSet o key v) k = if key = k then some v else objGet? o k := by
  induction o with
  | nil => simp [objSet, objGet?]
  | cons entry rest ih =>
    obtain ⟨a, w⟩ := entry
    by_cases hak : a = key
    · subst hak
      by_cases hk : a = k <;> simp [objSet, objGet?, hk]
    · by_cases hk : a = k
      · subst hk
        simp [objSet, objGet?, hak, Ne.symm hak]
      · simp [objSet, objGet?, hak, hk, ih]

theorem objSet_eq_self {o : Obj} {key : String} {v : JSVal} (h : objGet? o key = some v) :
    objSet o key v = o := by
  induction o with
  | nil => simp [objGet?] at h
  | cons entry rest ih =>
    obtain ⟨a, w⟩ := entry
    by_cases hak : a = key
    · simp only [objGet?, hak, if_true, Option.some.injEq] at h
      simp [objSet, hak, h]
    · simp only [objGet?, hak, if_false] at h
      simp [objSet, hak, ih h]

theorem mem_objKeys_iff (o : Obj) (k : String) :
    k ∈ objKeys o ↔ ∃ v, objGet? o k = some v := by
  induction o with
  | nil => simp [objKeys, objGet?]
  | cons entry rest ih =>
    obtain ⟨a, w⟩ := entry
    have ih2 : k ∈ List.map Prod.fst rest ↔ ∃ v, objGet? rest k = some v := ih
    by_cases hak : a = k
    · simp [objKeys, objGet?, hak]
    · simp only [objKeys, List.map_cons, List.mem_cons, objGet?, hak, if_false, ih2]
      constructor
      · rintro (h | h)
        · exact absurd h.symm hak
        · exact h
      · exact Or.inr

theorem objGet?_eq_none_iff (o : Obj) (k : String) :
    objGet? o k = none ↔ k ∉ objKeys o := by
  rw [mem_objKeys_iff]
  cases objGet? o k <;> simp

theorem objRead_of_get {o : Obj} {k : String} {v : JSVal} (h : objGet? o k = some v) :
    objRead o k = v := by
  simp [objRead, h]

theorem objRead_of_none {o : Obj} {k : String} (h : objGet? o k = none) :
    objRead o k = JSVal.undefined := by
  simp [objRead, h]

/-- The lookup after a loop of guarded assignments `acc[key] = f(key)`. -/
theorem objGet?_foldl_set (p : String → Bool) (f : String → JSVal) (keys : List String)
    (t : Obj) (k : String) :
    objGet?
        (keys.foldl (fun acc key => if p key = true then objSet acc key (f key) else acc) t) k =
      if k ∈ keys ∧ p k = true then some (f k) else objGet? t k := by
  induction keys generalizing t with
  | nil => simp
  | cons a rest ih =>
    rw [List.foldl_cons, ih]
    by_cases hk : k ∈ rest ∧ p k = true
    · have hk2 : k ∈ a :: rest ∧ p k = true := ⟨List.mem_cons_of_mem _ hk.1, hk.2⟩
      rw [if_pos hk, if_pos hk2]
    · rw [if_neg hk]
      by_cases hak : a = k
      · subst hak
        by_cases hp : p a = true
        · simp [hp, objGet?_objSet]
        · have hp2 : ¬ (a ∈ a :: rest ∧ p a = true) := fun h => hp h.2
          rw [if_neg hp, if_neg hp2]
      · have hk3 : ¬ (k ∈ a :: rest ∧ p k = true) := by
          rintro ⟨hmem, hp⟩
          rcases List.mem_cons.mp hmem with h | h
          · exact hak h.symm
          · exact hk ⟨h, hp⟩
        rw [if_neg hk3]
        by_cases hp : p a = true
        · rw [if_pos hp, objGet?_objSet, if_neg hak]
        · rw [if_neg hp]

theorem objGet?_objAssign (t source : Obj) (k : String) :
    objGet? (objAssign t source) k =
      match objGet? source k with
      | some v => some v
      | none => objGet? t k := by
  have h := objGet?_foldl_set (fun _ => true) (objRead source) (objKeys source) t k
  simp only [if_true] at h
  unfold objAssign
  rw [h]
  cases hs : objGet? source k with
  | none =>
    have hk : k ∉ objKeys source := (objGet?_eq_none_iff source k).mp hs
    simp [hk]
  | some v =>
    have hk : k ∈ objKeys source := (mem_objKeys_iff source k).mpr ⟨v, hs⟩
    simp [hk, objRead_of_get hs]

theorem objGet?_objRest (o : Obj) (named : List String) (k : String) :
    objGet? (objRest o named) k = if k ∈ named then none else objGet? o k := by
  induction o with
  | nil => simp [objRest, objGet?]
  | cons entry rest ih =>
    obtain ⟨a, w⟩ := entry
    by_cases ha : a ∈ named
    · have hf : objRest ((a, w) :: rest) named = objRest rest named := by
        simp [objRest, List.filter_cons, ha]
      rw [hf, ih]
      by_cases hak : a = k
      · subst hak
        simp [ha]
      · simp [objGet?, hak]
    · have hf : objRest ((a, w) :: rest) named = (a, w) :: objRest rest named := by
        simp [objRest, List.filter_cons, ha]
      rw [hf]
      by_cases hak : a = k
      · subst hak
        simp [objGet?, ha]
      · simp only [objGet?, hak, if_false]
        exact ih

/-- The object that the `reduce` of `setQueryParams` builds has the entries of
the argument whose value is not `null`, except for the key `"__proto__"`. -/
theorem objGet?_reduce_non_null (params : Obj) (k : String) :
    objGet?
        ((objKeys params).foldl
          (fun acc key =>
            if objRead params key ≠ JSVal.null then objPut acc key (objRead params key)
            else acc)
          []) k =
      if k = "__proto__" then none
      else
        match objGet? params k with
        | some v => if v = JSVal.null then none else some v
        | none => none := by
  have hstep :
      (fun (acc : Obj) (key : String) =>
        if objRead params key ≠ JSVal.null then objPut acc key (objRead params key) else acc) =
      (fun (acc : Obj) (key : String) =>
        if decide (objRead params key ≠ JSVal.null ∧ key ≠ "__proto__") = true then
          objSet acc key (objRead params key)
        else acc) := by
    funext acc key
    unfold objPut
    by_cases hv : objRead params key = JSVal.null <;>
      by_cases hp : key = "__proto__" <;> simp [hv, hp]
  rw [hstep,
    objGet?_foldl_set (fun key => decide (objRead params key ≠ JSVal.null ∧ key ≠ "__proto__"))
      (objRead params) (objKeys params) [] k]
  by_cases hp : k = "__proto__"
  · simp [hp, objGet?]
  · rw [if_neg hp]
    cases hs : objGet? params k with
    | none =>
      have hk : k ∉ objKeys params := (objGet?_eq_none_iff params k).mp hs
      simp [hk, objGet?]
    | some v =>
      have hk : k ∈ objKeys params := (mem_objKeys_iff params k).mpr ⟨v, hs⟩
      by_cases hv : v = JSVal.null
      · simp [hk, objRead_of_get hs, hv, objGet?]
      · simp [hk, objRead_of_get hs, hv, hp]

/-- The lookup in `customQueryParams` after `setQueryParams`. -/
theorem setQueryParams_get (params : Obj) (s : Store) (k : String) :
    objGet? (setQueryParams params s).customQueryParams k =
      if k = "__proto__" then objGet? s.customQueryParams k
      else
        match objGet? params k with
        | some v => if v = JSVal.null then objGet? s.customQueryParams k else some v
        | none => objGet? s.customQueryParams k := by
  unfold setQueryParams mobxSet
  simp only
  rw [objGet?_objAssign, objGet?_reduce_non_null]
  by_cases hp : k = "__proto__"
  · simp [hp]
  · simp only [hp, if_false]
    cases hs : objGet? params k with
    | none => rfl
    | some v =>
      by_cases hv : v = JSVal.null <;> simp [hv]

/-! ## `setQueryParams` and `urlState` -/

/-- The lookup in `urlState`: a custom query parameter wins over a base key. -/
theorem urlState_get (s : Store) (k : String) :
    objGet? (urlState s) k =
      match objGet? s.customQueryParams k with
      | some v => some v
      | none =>
        objGet?
          [ ("selectedKind", s.selectedKind),
            ("selectedStory", s.selectedStory),
            ("full", s.shortcutOptions.full),
            ("panel", s.shortcutOptions.panel),
            ("nav", s.shortcutOptions.nav) ] k := by
  unfold urlState
  rw [objGet?_objAssign]

/-- C11 fails as stated: after `setQueryParams({y: "2"})` on the initial state,
`setQueryParams({x: "1", y: null})` leaves `y = "2"` in `customQueryParams`,
and `y` is a key of `urlState`. Besides, the own key `"__proto__"` with the
value `"x"` is not stored by `setQueryParams` on the initial state. -/
theorem setQueryParams_null_keeps_stored :
    objGet? [("x", JSVal.str "1"), ("y", JSVal.null)] "y" = some JSVal.null ∧
    objGet?
        (setQueryParams [("x", JSVal.str "1"), ("y", JSVal.null)]
          (setQueryParams [("y", JSVal.str "2")] initialStore)).customQueryParams "y" =
      some (JSVal.str "2") ∧
    "y" ∈ objKeys
        (urlState
          (setQueryParams [("x", JSVal.str "1"), ("y", JSVal.null)]
            (setQueryParams [("y", JSVal.str "2")] initialStore))) ∧
    objGet? [("__proto__", JSVal.str "x")] "__proto__" = some (JSVal.str "x") ∧
    objGet? (setQueryParams [("__proto__", JSVal.str "x")] initialStore).customQueryParams
        "__proto__" = none := by
  decide

/-- C11, amended: after `setQueryParams params`, `customQueryParams` (and
`urlState`) maps every key other than `"__proto__"` whose value in `params` is
not `null` to that value; a key whose value in `params` is `null`, and a key
that `params` lacks, is stored as it was before the call (absent when it was
absent); no other field of the store changes. -/
theorem setQueryParams_spec (params : Obj) (s : Store) :
    (∀ k v, k ≠ "__proto__" → objGet? params k = some v → v ≠ JSVal.null →
      objGet? (setQueryParams params s).customQueryParams k = some v ∧
      objGet? (urlState (setQueryParams params s)) k = some v) ∧
    (∀ k, objGet? params k = some JSVal.null →
      objGet? (setQueryParams params s).customQueryParams k = objGet? s.customQueryParams k) ∧
    (∀ k, objGet? params k = none →
      objGet? (setQueryParams params s).customQueryParams k = objGet? s.customQueryParams k) ∧
    setQueryParams params s =
      { s with customQueryParams := (setQueryParams params s).customQueryParams } := by
  refine ⟨?_, ?_, ?_, rfl⟩
  · intro k v hp hk hv
    have hget : objGet? (setQueryParams params s).customQueryParams k = some v := by
      rw [setQueryParams_get, if_neg hp, hk]
      simp [hv]
    refine ⟨hget, ?_⟩
    rw [urlState_get, hget]
  · intro k hk
    rw [setQueryParams_get, hk]
    simp
  · intro k hk
    rw [setQueryParams_get, hk]
    simp

/-- C11 amended, at the example of the specification: `setQueryParams({x: "1",
y: null})` on the initial state stores `x = "1"`, also in `urlState`, and
leaves `y` absent. -/
theorem setQueryParams_spec_witness :
    (objGet? (setQueryParams [("x", JSVal.str "1"), ("y", JSVal.null)]
        initialStore).customQueryParams "x" = some (JSVal.str "1") ∧
      objGet? (urlState (setQueryParams [("x", JSVal.str "1"), ("y", JSVal.null)]
        initialStore)) "x" = some (JSVal.str "1")) ∧
    objGet? (setQueryParams [("x", JSVal.str "1"), ("y", JSVal.null)]
        initialStore).customQueryParams "y" = objGet? initialStore.customQueryParams "y" :=
  ⟨(setQueryParams_spec [("x", JSVal.str "1"), ("y", JSVal.null)] initialStore).1
      "x" (JSVal.str "1") (by decide) (by decide) (by decide),
   (setQueryParams_spec [("x", JSVal.str "1"), ("y", JSVal.null)] initialStore).2.1
      "y" (by decide)⟩

/-- C12: the keys of `urlState` are the five base keys together with the keys
of `customQueryParams`; every key of `customQueryParams` maps to its custom
value, also when it is a base key; and every base key that is not a key of
`customQueryParams` maps to the selection field or shortcut flag of its name. -/
theorem urlState_spec (s : Store) :
    (∀ k, k ∈ objKeys (urlState s) ↔
      k ∈ ["selectedKind", "selectedStory", "full", "panel", "nav"] ∨
        k ∈ objKeys s.customQueryParams) ∧
    (∀ k v, objGet? s.customQueryParams k = some v → objGet? (urlState s) k = some v) ∧
    ("selectedKind" ∉ objKeys s.customQueryParams →
      objGet? (urlState s) "selectedKind" = some s.selectedKind) ∧
    ("selectedStory" ∉ objKeys s.customQueryParams →
      objGet? (urlState s) "selectedStory" = some s.selectedStory) ∧
    ("full" ∉ objKeys s.customQueryParams →
      objGet? (urlState s) "full" = some s.shortcutOptions.full) ∧
    ("panel" ∉ objKeys s.customQueryParams →
      objGet? (urlState s) "panel" = some s.shortcutOptions.panel) ∧
    ("nav" ∉ objKeys s.customQueryParams →
      objGet? (urlState s) "nav" = some s.shortcutOptions.nav) := by
  have hbase : ∀ k, k ∉ objKeys s.customQueryParams →
      objGet? (urlState s) k =
        objGet?
          [ ("selectedKind", s.selectedKind),
            ("selectedStory", s.selectedStory),
            ("full", s.shortcutOptions.full),
            ("panel", s.shortcutOptions.panel),
            ("nav", s.shortcutOptions.nav) ] k := by
    intro k hk
    rw [urlState_get, (objGet?_eq_none_iff _ k).mpr hk]
  refine ⟨?_, ?_, ?_, ?_, ?_, ?_, ?_⟩
  · intro k
    rw [mem_objKeys_iff, urlState_get]
    cases hc : objGet? s.customQueryParams k with
    | some v =>
      have hk : k ∈ objKeys s.customQueryParams := (mem_objKeys_iff _ k).mpr ⟨v, hc⟩
      simp [hk]
    | none =>
      have hk : k ∉ objKeys s.customQueryParams := (objGet?_eq_none_iff _ k).mp hc
      simp only [hk, or_false]
      rw [← mem_objKeys_iff]
      simp [objKeys]
  · intro k v hk
    rw [urlState_get, hk]
  · intro hk
    rw [hbase _ hk]
    simp [objGet?]
  · intro hk
    rw [hbase _ hk]
    simp [objGet?]
  · intro hk
    rw [hbase _ hk]
    simp [objGet?]
  · intro hk
    rw [hbase _ hk]
    simp [objGet?]
  · intro hk
    rw [hbase _ hk]
    simp [objGet?]

/-- C12, at a concrete input: the initial state with the custom query
parameters `{full: "zz", x: "1"}`, where `full` collides with a base key. -/
theorem urlState_spec_witness :
    objGet? (urlState (setQueryParams [("full", JSVal.str "zz"), ("x", JSVal.str "1")]
        initialStore)) "full" = some (JSVal.str "zz") ∧
    objGet? (urlState (setQueryParams [("full", JSVal.str "zz"), ("x", JSVal.str "1")]
        initialStore)) "nav" = some (JSVal.bool true) :=
  ⟨(urlState_spec (setQueryParams [("full", JSVal.str "zz"), ("x", JSVal.str "1")]
      initialStore)).2.1 "full" (JSVal.str "zz") (by decide),
   (urlState_spec (setQueryParams [("full", JSVal.str "zz"), ("x", JSVal.str "1")]
      initialStore)).2.2.2.2.2.2 (by decide)⟩

/-! ## `updateFromLocation` -/

/-- The call of `setShortcutsOptions` that `updateFromLocation` makes assigns
the three flags it passes and keeps `enableShortcuts`. -/
theorem setShortcutsOptions_three (a b c : JSVal) (s : Store) :
    setShortcutsOptions [("full", a), ("panel", b), ("nav", c)] s =
      { s with shortcutOptions := { s.shortcutOptions with full := a, panel := b, nav := c } } :=
  rfl

/-- The state after `updateFromLocation`, field by field. -/
theorem updateFromLocation_eq (numberIsTruthy : String → Bool) (params : Obj) (s : Store) :
    updateFromLocation numberIsTruthy params s =
      { s with
        selectedKind :=
          if (objRead params "selectedKind").truthy then objRead params "selectedKind"
          else s.selectedKind
        selectedStory :=
          if (objRead params "selectedKind").truthy then objRead params "selectedStory"
          else s.selectedStory
        shortcutOptions :=
          { s.shortcutOptions with
            full :=
              JSVal.bool (booleanOfNumber numberIsTruthy
                (withDefault (objRead params "full") (JSVal.num 0)))
            panel :=
              if withDefault (objRead params "panel") (JSVal.str "bottom") = JSVal.str "bottom" ∨
                  withDefault (objRead params "panel") (JSVal.str "bottom") = JSVal.str "right" then
                withDefault (objRead params "panel") (JSVal.str "bottom")
              else JSVal.bool false
            nav :=
              JSVal.bool (booleanOfNumber numberIsTruthy
                (withDefault (objRead params "nav") (JSVal.bool true))) }
        selectedAddonPanel :=
          if (objRead params "addonPanel").truthy then objRead params "addonPanel"
          else s.selectedAddonPanel
        customQueryParams :=
          (setQueryParams (objRest params locationKeys) s).customQueryParams } := by
  unfold updateFromLocation
  simp only [setShortcutsOptions_three]
  by_cases hk : (objRead params "selectedKind").truthy = true <;>
    by_cases hp : (objRead params "addonPanel").truthy = true <;>
      simp [hk, hp, selectAddonPanel, setQueryParams]

/-- C13 fails as stated: the parameters `{"__proto__": "x"}`, with `"__proto__"`
an own key that is none of the six named ones and has a value other than
`null`, leave `customQueryParams` without the key `"__proto__"`. -/
theorem location_proto_key_not_stored :
    "__proto__" ∉ locationKeys ∧
    objGet? [("__proto__", JSVal.str "x")] "__proto__" = some (JSVal.str "x") ∧
    JSVal.str "x" ≠ JSVal.null ∧
    objGet? (updateFromLocation zeroOneIsTruthy [("__proto__", JSVal.str "x")]
        initialStore).customQueryParams "__proto__" = none := by
  decide

/-- C13, amended: after `updateFromLocation`, `full` is `false` when the key is absent
(it reads as `undefined`), `true` for `"1"` and `false` for `"0"`; `nav` is
`true` when absent, `true` for `"1"` and `false` for `"0"`; `panel` is
`'bottom'` when absent, the given value when that is `'bottom'` or `'right'`
and `false` for every other value; `enableShortcuts` is unchanged; and every
key outside the six named ones and other than `"__proto__"`, with a value
other than `null`, is stored under the same key in `customQueryParams`. The
conversion of strings to numbers is only assumed right on `"0"` and `"1"`. -/
theorem updateFromLocation_flags (numberIsTruthy : String → Bool)
    (h0 : numberIsTruthy "0" = false) (h1 : numberIsTruthy "1" = true)
    (params : Obj) (s : Store) :
    (objRead params "full" = JSVal.undefined →
      (updateFromLocation numberIsTruthy params s).shortcutOptions.full = JSVal.bool false) ∧
    (objRead params "full" = JSVal.str "1" →
      (updateFromLocation numberIsTruthy params s).shortcutOptions.full = JSVal.bool true) ∧
    (objRead params "full" = JSVal.str "0" →
      (updateFromLocation numberIsTruthy params s).shortcutOptions.full = JSVal.bool false) ∧
    (objRead params "nav" = JSVal.undefined →
      (updateFromLocation numberIsTruthy params s).shortcutOptions.nav = JSVal.bool true) ∧
    (objRead params "nav" = JSVal.str "1" →
      (updateFromLocation numberIsTruthy params s).shortcutOptions.nav = JSVal.bool true) ∧
    (objRead params "nav" = JSVal.str "0" →
      (updateFromLocation numberIsTruthy params s).shortcutOptions.nav = JSVal.bool false) ∧
    (objRead params "panel" = JSVal.undefined →
      (updateFromLocation numberIsTruthy params s).shortcutOptions.panel = JSVal.str "bottom") ∧
    (objRead params "panel" = JSVal.str "bottom" ∨ objRead params "panel" = JSVal.str "right" →
      (updateFromLocation numberIsTruthy params s).shortcutOptions.panel =
        objRead params "panel") ∧
    (objRead params "panel" ≠ JSVal.undefined → objRead params "panel" ≠ JSVal.str "bottom" →
      objRead params "panel" ≠ JSVal.str "right" →
      (updateFromLocation numberIsTruthy params s).shortcutOptions.panel = JSVal.bool false) ∧
    (updateFromLocation numberIsTruthy params s).shortcutOptions.enableShortcuts =
      s.shortcutOptions.enableShortcuts ∧
    (∀ k v, k ∉ locationKeys → k ≠ "__proto__" → objGet? params k = some v → v ≠ JSVal.null →
      objGet? (updateFromLocation numberIsTruthy params s).customQueryParams k = some v) := by
  rw [updateFromLocation_eq]
  refine ⟨?_, ?_, ?_, ?_, ?_, ?_, ?_, ?_, ?_, rfl, ?_⟩
  · intro h
    simp [h, withDefault, booleanOfNumber]
  · intro h
    simp [h, withDefault, booleanOfNumber, h1]
  · intro h
    simp [h, withDefault, booleanOfNumber, h0]
  · intro h
    simp [h, withDefault, booleanOfNumber]
  · intro h
    simp [h, withDefault, booleanOfNumber, h1]
  · intro h
    simp [h, withDefault, booleanOfNumber, h0]
  · intro h
    simp [h, withDefault]
  · intro h
    rcases h with h | h <;> simp [h, withDefault]
  · intro hu hb hr
    simp [withDefault, hu, hb, hr]
  · intro k v hk hp hget hv
    show objGet? (setQueryParams (objRest params locationKeys) s).customQueryParams k = some v
    rw [setQueryParams_get, if_neg hp, objGet?_objRest, if_neg hk, hget]
    simp [hv]

/-- C13 amended, at a concrete input: the parameters `{full: "1", panel: "side",
theme: "dark"}` on the initial state. -/
theorem updateFromLocation_flags_witness :
    (updateFromLocation zeroOneIsTruthy
        [("full", JSVal.str "1"), ("panel", JSVal.str "side"), ("theme", JSVal.str "dark")]
        initialStore).shortcutOptions.full = JSVal.bool true ∧
    (updateFromLocation zeroOneIsTruthy
        [("full", JSVal.str "1"), ("panel", JSVal.str "side"), ("theme", JSVal.str "dark")]
        initialStore).shortcutOptions.nav = JSVal.bool true ∧
    (updateFromLocation zeroOneIsTruthy
        [("full", JSVal.str "1"), ("panel", JSVal.str "side"), ("theme", JSVal.str "dark")]
        initialStore).shortcutOptions.panel = JSVal.bool false ∧
    objGet? (updateFromLocation zeroOneIsTruthy
        [("full", JSVal.str "1"), ("panel", JSVal.str "side"), ("theme", JSVal.str "dark")]
        initialStore).customQueryParams "theme" = some (JSVal.str "dark") :=
  ⟨(updateFromLocation_flags zeroOneIsTruthy rfl rfl
      [("full", JSVal.str "1"), ("panel", JSVal.str "side"), ("theme", JSVal.str "dark")]
      initialStore).2.1 (by decide),
   (updateFromLocation_flags zeroOneIsTruthy rfl rfl
      [("full", JSVal.str "1"), ("panel", JSVal.str "side"), ("theme", JSVal.str "dark")]
      initialStore).2.2.2.1 (by decide),
   (updateFromLocation_flags zeroOneIsTruthy rfl rfl
      [("full", JSVal.str "1"), ("panel", JSVal.str "side"), ("theme", JSVal.str "dark")]
      initialStore).2.2.2.2.2.2.2.2.1 (by decide) (by decide) (by decide),
   (updateFromLocation_flags zeroOneIsTruthy rfl rfl
      [("full", JSVal.str "1"), ("panel", JSVal.str "side"), ("theme", JSVal.str "dark")]
      initialStore).2.2.2.2.2.2.2.2.2.2 "theme" (JSVal.str "dark") (by decide) (by decide)
      (by decide) (by decide)⟩

/-- C14 fails as stated: over `[A:[a1,a2], B:[b1]]` with the valid selection
`(A, a1)`, `updateFromLocation({selectedKind: "Z"})` leaves the selection
`("Z", undefined)` and `updateFromLocation({selectedKind: "A", selectedStory:
"zz"})` leaves `("A", "zz")`; neither is valid. -/
theorem location_selection_not_valid :
    SelectionValid (storeWith hierarchyAB (JSVal.str "A") (JSVal.str "a1")) ∧
    (updateFromLocation zeroOneIsTruthy [("selectedKind", JSVal.str "Z")]
        (storeWith hierarchyAB (JSVal.str "A") (JSVal.str "a1"))).selectedKind = JSVal.str "Z" ∧
    (updateFromLocation zeroOneIsTruthy [("selectedKind", JSVal.str "Z")]
        (storeWith hierarchyAB (JSVal.str "A") (JSVal.str "a1"))).selectedStory =
      JSVal.undefined ∧
    ¬ SelectionValid
        (updateFromLocation zeroOneIsTruthy [("selectedKind", JSVal.str "Z")]
          (storeWith hierarchyAB (JSVal.str "A") (JSVal.str "a1"))) ∧
    (updateFromLocation zeroOneIsTruthy
        [("selectedKind", JSVal.str "A"), ("selectedStory", JSVal.str "zz")]
        (storeWith hierarchyAB (JSVal.str "A") (JSVal.str "a1"))).selectedStory =
      JSVal.str "zz" ∧
    ¬ SelectionValid
        (updateFromLocation zeroOneIsTruthy
          [("selectedKind", JSVal.str "A"), ("selectedStory", JSVal.str "zz")]
          (storeWith hierarchyAB (JSVal.str "A") (JSVal.str "a1"))) := by
  decide

/-- C14, amended: `updateFromLocation` keeps the hierarchy; when the
`selectedKind` of the parameters is falsy (absent or empty) the selection is
unchanged; when it is truthy the selection becomes the pair of the parameters
as given, without reconciliation. So a valid selection stays valid when the
`selectedKind` of the parameters is falsy or the pair of the parameters is a
kind of the hierarchy with one of its stories. -/
theorem updateFromLocation_selection (numberIsTruthy : String → Bool) (params : Obj)
    (s : Store) :
    (updateFromLocation numberIsTruthy params s).stories = s.stories ∧
    ((objRead params "selectedKind").truthy = false →
      (updateFromLocation numberIsTruthy params s).selectedKind = s.selectedKind ∧
      (updateFromLocation numberIsTruthy params s).selectedStory = s.selectedStory) ∧
    ((objRead params "selectedKind").truthy = true →
      (updateFromLocation numberIsTruthy params s).selectedKind =
        objRead params "selectedKind" ∧
      (updateFromLocation numberIsTruthy params s).selectedStory =
        objRead params "selectedStory") ∧
    (SelectionValid s →
      ((objRead params "selectedKind").truthy = false ∨
        ∃ e ∈ s.stories, JSVal.str e.kind = objRead params "selectedKind" ∧
          ∃ x ∈ e.stories, JSVal.str x = objRead params "selectedStory") →
      SelectionValid (updateFromLocation numberIsTruthy params s)) := by
  rw [updateFromLocation_eq]
  refine ⟨rfl, ?_, ?_, ?_⟩
  · intro h
    simp [h]
  · intro h
    simp [h]
  · intro hvalid hparams
    by_cases hk : (objRead params "selectedKind").truthy = true
    · rcases hparams with hfalse | hpair
      · rw [hk] at hfalse
        cases hfalse
      · unfold SelectionValid
        simp only [hk, if_true]
        exact Or.inr hpair
    · unfold SelectionValid at hvalid ⊢
      simp only [hk, if_false]
      exact hvalid

/-- C14 amended, at concrete inputs: over `[A:[a1,a2], B:[b1]]` with the
selection `(A, a1)`, parameters without `selectedKind` and parameters with the
pair `(B, b1)` both leave a valid selection. -/
theorem updateFromLocation_selection_witness :
    SelectionValid
      (updateFromLocation zeroOneIsTruthy [("full", JSVal.str "1")]
        (storeWith hierarchyAB (JSVal.str "A") (JSVal.str "a1"))) ∧
    SelectionValid
      (updateFromLocation zeroOneIsTruthy
        [("selectedKind", JSVal.str "B"), ("selectedStory", JSVal.str "b1")]
        (storeWith hierarchyAB (JSVal.str "A") (JSVal.str "a1"))) :=
  ⟨(updateFromLocation_selection zeroOneIsTruthy [("full", JSVal.str "1")]
      (storeWith hierarchyAB (JSVal.str "A") (JSVal.str "a1"))).2.2.2 (by decide)
      (Or.inl (by decide)),
   (updateFromLocation_selection zeroOneIsTruthy
      [("selectedKind", JSVal.str "B"), ("selectedStory", JSVal.str "b1")]
      (storeWith hierarchyAB (JSVal.str "A") (JSVal.str "a1"))).2.2.2 (by decide)
      (Or.inr (by decide))⟩

/-! ## `ensurePanel` and the selected panel -/

theorem indexOf_nonneg_iff (xs : List String) (v : JSVal) :
    0 ≤ indexOf xs v ↔ ∃ x ∈ xs, JSVal.str x = v := by
  induction xs with
  | nil => simp [indexOf]
  | cons x rest ih =>
    unfold indexOf
    by_cases hx : JSVal.str x = v
    · simp [hx]
    · by_cases hrest : indexOf rest v < 0
      · have hno : ¬ ∃ y ∈ rest, JSVal.str y = v := fun h => by
          have := ih.mpr h
          omega
        simp only [hx, hrest, if_false, if_true, List.mem_cons, exists_eq_or_imp, false_or]
        constructor
        · intro h
          omega
        · intro h
          exact absurd h hno
      · have hyes : ∃ y ∈ rest, JSVal.str y = v := ih.mp (by omega)
        simp only [hx, hrest, if_false, List.mem_cons, exists_eq_or_imp, false_or]
        constructor
        · intro _
          exact hyes
        · intro _
          omega

theorem ensurePanel_of_key {σ : Type} (logger : Logger σ) (panels : List (String × Panel))
    (candidate fallback : JSVal) (console : σ)
    (hkey : ∃ key ∈ panels.map Prod.fst, JSVal.str key = candidate) :
    (ensurePanel logger panels candidate fallback console).1 = candidate := by
  have h : indexOf (panels.map Prod.fst) candidate ≥ 0 := (indexOf_nonneg_iff _ _).mpr hkey
  unfold ensurePanel
  rw [if_pos h]

theorem ensurePanel_of_not_key {σ : Type} (logger : Logger σ) (panels : List (String × Panel))
    (candidate fallback : JSVal) (console : σ)
    (hkey : ¬ ∃ key ∈ panels.map Prod.fst, JSVal.str key = candidate) :
    (ensurePanel logger panels candidate fallback console).1 = fallback := by
  have h : ¬ indexOf (panels.map Prod.fst) candidate ≥ 0 :=
    fun hge => hkey ((indexOf_nonneg_iff _ _).mp hge)
  unfold ensurePanel
  rw [if_neg h]

/-- C15: for every console, `ensurePanel` returns the candidate when it is a
key of the registry and the fallback otherwise, so that the result is a key of
the registry or the fallback. -/
theorem ensurePanel_spec {σ : Type} (logger : Logger σ) (panels : List (String × Panel))
    (candidate fallback : JSVal) (console : σ) :
    ((∃ key ∈ panels.map Prod.fst, JSVal.str key = candidate) →
      (ensurePanel logger panels candidate fallback console).1 = candidate) ∧
    ((¬ ∃ key ∈ panels.map Prod.fst, JSVal.str key = candidate) →
      (ensurePanel logger panels candidate fallback console).1 = fallback) ∧
    ((∃ key ∈ panels.map Prod.fst,
        JSVal.str key = (ensurePanel logger panels candidate fallback console).1) ∨
      (ensurePanel logger panels candidate fallback console).1 = fallback) := by
  refine ⟨ensurePanel_of_key logger panels candidate fallback console,
    ensurePanel_of_not_key logger panels candidate fallback console, ?_⟩
  by_cases hkey : ∃ key ∈ panels.map Prod.fst, JSVal.str key = candidate
  · left
    rw [ensurePanel_of_key logger panels candidate fallback console hkey]
    exact hkey
  · right
    exact ensurePanel_of_not_key logger panels candidate fallback console hkey

/-- C15, at concrete inputs: the registry `{actions, knobs}` with a recording
console, the candidate `knobs` and the candidate `nope`. -/
theorem ensurePanel_spec_witness :
    (ensurePanel listLogger panelsAK (JSVal.str "knobs") JSVal.null []).1 = JSVal.str "knobs" ∧
    (ensurePanel listLogger panelsAK (JSVal.str "nope") (JSVal.str "actions") []).1 =
      JSVal.str "actions" :=
  ⟨(ensurePanel_spec listLogger panelsAK (JSVal.str "knobs") JSVal.null []).1 (by decide),
   (ensurePanel_spec listLogger panelsAK (JSVal.str "nope") (JSVal.str "actions") []).2.1
     (by decide)⟩

theorem setOptions_selectedAddonPanel {σ : Type} (logger : Logger σ)
    (panels : List (String × Panel)) (options : Obj) (s : Store) (console : σ) :
    (setOptions logger panels options s console).1.selectedAddonPanel =
      if (objRead options "selectedAddonPanel").truthy then
        (ensurePanel logger panels (objRead options "selectedAddonPanel") s.selectedAddonPanel
          console).1
      else s.selectedAddonPanel := by
  unfold setOptions
  by_cases h : (objRead options "selectedAddonPanel").truthy = true <;> simp [h]

/-- One call keeps `selectedAddonPanel` absent, a key of the registry, or a
name assigned without validation. -/
theorem apply_keeps_panel_known {σ : Type} (logger : Logger σ)
    (panels : List (String × Panel)) (numberIsTruthy : String → Bool) (call : PanelCall)
    (st : Store × σ) (seen : List JSVal)
    (h : PanelValid panels st.1 ∨ st.1.selectedAddonPanel ∈ seen) :
    PanelValid panels (call.apply logger panels numberIsTruthy st).1 ∨
      (call.apply logger panels numberIsTruthy st).1.selectedAddonPanel ∈
        seen ++ call.assigned := by
  have hkeep : PanelValid panels st.1 ∨ st.1.selectedAddonPanel ∈ seen ++ call.assigned :=
    h.imp id (fun hm => List.mem_append_left _ hm)
  cases call with
  | setOptions options =>
    show PanelValid panels (setOptions logger panels options st.1 st.2).1 ∨
      (setOptions logger panels options st.1 st.2).1.selectedAddonPanel ∈ _
    unfold PanelValid at hkeep ⊢
    rw [setOptions_selectedAddonPanel]
    by_cases ht : (objRead options "selectedAddonPanel").truthy = true
    · rw [if_pos ht]
      by_cases hkey : ∃ key ∈ panels.map Prod.fst,
          JSVal.str key = objRead options "selectedAddonPanel"
      · rw [ensurePanel_of_key logger panels _ _ _ hkey]
        exact Or.inl (Or.inr hkey)
      · rw [ensurePanel_of_not_key logger panels _ _ _ hkey]
        exact hkeep
    · rw [if_neg ht]
      exact hkeep
  | selectAddonPanel panelName =>
    right
    show panelName ∈ seen ++ [panelName]
    simp
  | updateFromLocation params =>
    show PanelValid panels (updateFromLocation numberIsTruthy params st.1) ∨
      (updateFromLocation numberIsTruthy params st.1).selectedAddonPanel ∈ _
    unfold PanelValid at hkeep ⊢
    rw [updateFromLocation_eq]
    by_cases ht : (objRead params "addonPanel").truthy = true
    · right
      simp [ht, PanelCall.assigned]
    · simp only [ht, if_false]
      exact hkeep

theorem runPanelCalls_valid_or_assigned {σ : Type} (logger : Logger σ)
    (panels : List (String × Panel)) (numberIsTruthy : String → Bool) (calls : List PanelCall)
    (st : Store × σ) (seen : List JSVal)
    (h : PanelValid panels st.1 ∨ st.1.selectedAddonPanel ∈ seen) :
    PanelValid panels (runPanelCalls logger panels numberIsTruthy calls st).1 ∨
      (runPanelCalls logger panels numberIsTruthy calls st).1.selectedAddonPanel ∈
        seen ++ assignedPanels calls := by
  induction calls generalizing st seen with
  | nil => simpa [runPanelCalls, assignedPanels] using h
  | cons call rest ih =>
    have hstep := apply_keeps_panel_known logger panels numberIsTruthy call st seen h
    have hrest := ih (call.apply logger panels numberIsTruthy st) (seen ++ call.assigned) hstep
    simpa [runPanelCalls, assignedPanels, List.append_assoc] using hrest

/-- C16 fails as stated: with the registry `{actions, knobs}`, from the initial
state, `selectAddonPanel("nope")` and `updateFromLocation({addonPanel: "nope"})`
each leave `selectedAddonPanel = "nope"`, which is not a key of the registry. -/
theorem panel_not_valid_after_call :
    (runPanelCalls listLogger panelsAK zeroOneIsTruthy
        [PanelCall.selectAddonPanel (JSVal.str "nope")] (initialStore, [])).1.selectedAddonPanel =
      JSVal.str "nope" ∧
    ¬ PanelValid panelsAK
        (runPanelCalls listLogger panelsAK zeroOneIsTruthy
          [PanelCall.selectAddonPanel (JSVal.str "nope")] (initialStore, [])).1 ∧
    (runPanelCalls listLogger panelsAK zeroOneIsTruthy
        [PanelCall.updateFromLocation [("addonPanel", JSVal.str "nope")]]
        (initialStore, [])).1.selectedAddonPanel = JSVal.str "nope" ∧
    ¬ PanelValid panelsAK
        (runPanelCalls listLogger panelsAK zeroOneIsTruthy
          [PanelCall.updateFromLocation [("addonPanel", JSVal.str "nope")]]
          (initialStore, [])).1 := by
  decide

/-- C16, amended: for a fixed registry, from the initial state, after every
finite sequence of `setOptions`, `selectAddonPanel` and `updateFromLocation`
calls, `selectedAddonPanel` is absent, or a key of the registry, or a name that
one of the calls assigned without validation (the argument of a
`selectAddonPanel` call or the truthy `addonPanel` of an `updateFromLocation`
call); after a sequence of `setOptions` calls alone it is absent or a key of
the registry. -/
theorem panel_valid_or_assigned {σ : Type} (logger : Logger σ)
    (panels : List (String × Panel)) (numberIsTruthy : String → Bool) (calls : List PanelCall)
    (console : σ) :
    (PanelValid panels
        (runPanelCalls logger panels numberIsTruthy calls (initialStore, console)).1 ∨
      (runPanelCalls logger panels numberIsTruthy calls
        (initialStore, console)).1.selectedAddonPanel ∈ assignedPanels calls) ∧
    (assignedPanels calls = [] →
      PanelValid panels
        (runPanelCalls logger panels numberIsTruthy calls (initialStore, console)).1) := by
  have h := runPanelCalls_valid_or_assigned logger panels numberIsTruthy calls
    (initialStore, console) [] (Or.inl (Or.inl rfl))
  simp only [List.nil_append] at h
  refine ⟨h, ?_⟩
  intro hnone
  rw [hnone] at h
  rcases h with h | h
  · exact h
  · cases h

/-- C16 amended, at a concrete sequence: two `setOptions` calls, the first with
a key of the registry and the second with an unknown name. -/
theorem panel_valid_or_assigned_witness :
    PanelValid panelsAK
      (runPanelCalls listLogger panelsAK zeroOneIsTruthy
        [PanelCall.setOptions [("selectedAddonPanel", JSVal.str "knobs")],
         PanelCall.setOptions [("selectedAddonPanel", JSVal.str "nope")]]
        (initialStore, [])).1 :=
  (panel_valid_or_assigned listLogger panelsAK zeroOneIsTruthy
    [PanelCall.setOptions [("selectedAddonPanel", JSVal.str "knobs")],
     PanelCall.setOptions [("selectedAddonPanel", JSVal.str "nope")]]
    []).2 (by decide)

/-! ## Idempotence of `ensureKind` -/

/-- C17: `ensureKind h (ensureKind h k) = ensureKind h k` for every hierarchy
`h` and candidate `k`. -/
theorem ensureKind_idempotent (h : List Item) (k : JSVal) :
    ensureKind h (ensureKind h k) = ensureKind h k := by
  by_cases hne : h = []
  · subst hne
    rfl
  · exact ensureKind_of_present (ensureKind_present hne k)

/-! ## `jumpToStory` with repeated pairs, and there and back -/

/-- When `i` is the last index at which the selection occurs, `jumpToStory d`
reads the flattened sequence at `i + d`. -/
theorem jumpToStory_from_last (s : Store) (i : Nat) (p : FlatStory) (d : Int)
    (hk : s.selectedKind = JSVal.str p.kind) (hs : s.selectedStory = JSVal.str p.story)
    (hi : (flattenStories s.stories)[i]? = some p)
    (hlast : ∀ j, i < j → (flattenStories s.stories)[j]? ≠ some p) :
    jumpToStory d s =
      match arrayGet (flattenStories s.stories) ((i : Int) + d) with
      | none => s
      | some q => { s with selectedKind := JSVal.str q.kind, selectedStory := JSVal.str q.story } := by
  have hidx : (jumpScan s.selectedKind s.selectedStory s.stories).currentIndex = (i : Int) := by
    apply jumpScan_index_of_last _ _ _ i p hi
    · rw [hk, hs]
      exact (isSelection_str_iff p p).mpr rfl
    · intro j q hij hj hq
      rw [hk, hs] at hq
      have hqp : q = p := (isSelection_str_iff p q).mp hq
      exact hlast j hij (hqp ▸ hj)
  rw [jumpToStory_eq, hidx]

theorem arrayGet_in_bounds {α : Type} (xs : List α) (i : Int) (hlo : 0 ≤ i)
    (hhi : i < (xs.length : Int)) : ∃ x, xs[i.toNat]? = some x ∧ arrayGet xs i = some x := by
  have hlt : i.toNat < xs.length := by omega
  exact ⟨xs[i.toNat], List.getElem?_eq_getElem hlt,
    by rw [arrayGet_of_nonneg _ _ hlo, List.getElem?_eq_getElem hlt]⟩

/-- C18 fails as stated: over `[A:[a,b], A:[a]]` the selection `(A, a)` occurs
at the indices `0` and `2` of the flattened sequence, the index `0 + 1` of the
first occurrence plus `1` is in bounds and holds `(A, b)`, yet `jumpToStory 1`
leaves the selection `(A, a)`. -/
theorem jump_not_from_first_occurrence :
    (flattenStories hierarchyAA)[0]? = some { kind := "A", story := "a" } ∧
    (flattenStories hierarchyAA)[2]? = some { kind := "A", story := "a" } ∧
    (flattenStories hierarchyAA)[0 + 1]? = some { kind := "A", story := "b" } ∧
    (jumpToStory 1 (storeWith hierarchyAA (JSVal.str "A") (JSVal.str "a"))).selectedStory =
      JSVal.str "a" ∧
    (jumpToStory 1 (storeWith hierarchyAA (JSVal.str "A") (JSVal.str "a"))).selectedStory ≠
      JSVal.str "b" := by
  decide

/-- C18, amended: when the selection occurs in the flattened sequence and `i`
is the index of its last occurrence, `jumpToStory d` takes `i + d` as its
target: the selection becomes the pair at that index when it is in bounds, and
the state is unchanged when it is out of bounds. -/
theorem jumpToStory_last_occurrence (s : Store) (i : Nat) (p : FlatStory) (d : Int)
    (hk : s.selectedKind = JSVal.str p.kind) (hs : s.selectedStory = JSVal.str p.story)
    (hi : (flattenStories s.stories)[i]? = some p)
    (hlast : ∀ j, i < j → (flattenStories s.stories)[j]? ≠ some p) :
    (0 ≤ (i : Int) + d → (i : Int) + d < ((flattenStories s.stories).length : Int) →
      ∃ q, (flattenStories s.stories)[((i : Int) + d).toNat]? = some q ∧
        jumpToStory d s =
          { s with selectedKind := JSVal.str q.kind, selectedStory := JSVal.str q.story }) ∧
    (((i : Int) + d < 0 ∨ ((flattenStories s.stories).length : Int) ≤ (i : Int) + d) →
      jumpToStory d s = s) := by
  have hjump := jumpToStory_from_last s i p d hk hs hi hlast
  refine ⟨?_, ?_⟩
  · intro hlo hhi
    obtain ⟨q, hq, hget⟩ := arrayGet_in_bounds (flattenStories s.stories) _ hlo hhi
    refine ⟨q, hq, ?_⟩
    rw [hjump, hget]
  · intro hout
    rw [hjump]
    rcases hout with hneg | hbig
    · rw [arrayGet_of_neg _ _ hneg]
    · rw [arrayGet_of_length_le _ _ hbig]

/-- C18 amended, at the hierarchy `[A:[a,b], A:[a]]` with the selection
`(A, a)`, whose last occurrence is at index `2`: `jumpToStory 1` changes
nothing and `jumpToStory (-1)` selects the pair at index `1`. -/
theorem jumpToStory_last_occurrence_witness :
    jumpToStory 1 (storeWith hierarchyAA (JSVal.str "A") (JSVal.str "a")) =
      storeWith hierarchyAA (JSVal.str "A") (JSVal.str "a") ∧
    jumpToStory (-1) (storeWith hierarchyAA (JSVal.str "A") (JSVal.str "a")) =
      storeWith hierarchyAA (JSVal.str "A") (JSVal.str "b") := by
  have hlast : ∀ j, 2 < j →
      (flattenStories (storeWith hierarchyAA (JSVal.str "A") (JSVal.str "a")).stories)[j]? ≠
        some { kind := "A", story := "a" } := by
    intro j hj
    have h3 : (flattenStories (storeWith hierarchyAA (JSVal.str "A")
        (JSVal.str "a")).stories).length = 3 := by decide
    rw [List.getElem?_eq_none (by omega)]
    simp
  refine ⟨(jumpToStory_last_occurrence (storeWith hierarchyAA (JSVal.str "A") (JSVal.str "a")) 2
      { kind := "A", story := "a" } 1 rfl rfl (by decide) hlast).2 (Or.inr (by decide)), ?_⟩
  obtain ⟨q, hq, hjump⟩ :=
    (jumpToStory_last_occurrence (storeWith hierarchyAA (JSVal.str "A") (JSVal.str "a")) 2
      { kind := "A", story := "a" } (-1) rfl rfl (by decide) hlast).1 (by decide) (by decide)
  have hq2 : q = { kind := "A", story := "b" } := by
    have h1 : (flattenStories (storeWith hierarchyAA (JSVal.str "A") (JSVal.str "a")).stories)[
        (((2 : Nat) : Int) + (-1)).toNat]? = some { kind := "A", story := "b" } := by decide
    rw [h1] at hq
    exact (Option.some.inj hq).symm
  rw [hjump, hq2]
  rfl

theorem nodup_last_occurrence {l : List FlatStory} (hn : l.Nodup) {i : Nat} {p : FlatStory}
    (hi : l[i]? = some p) : ∀ j, i < j → l[j]? ≠ some p := by
  intro j hij hj
  have hlt : i < l.length := (List.getElem?_eq_some.mp hi).1
  have := List.getElem?_inj hlt hn (hi.trans hj.symm)
  omega

/-- C19: when the pairs of the flattened sequence are pairwise distinct, the
selection is the pair at index `i` and `0 ≤ i + d < length`, `jumpToStory d`
followed by `jumpToStory (-d)` gives back the state before the two calls, and
the hierarchy and the shortcut flags are the same in between. -/
theorem jumpToStory_there_and_back (s : Store) (i : Nat) (p : FlatStory) (d : Int)
    (hk : s.selectedKind = JSVal.str p.kind) (hs : s.selectedStory = JSVal.str p.story)
    (hnodup : (flattenStories s.stories).Nodup)
    (hi : (flattenStories s.stories)[i]? = some p)
    (hlo : 0 ≤ (i : Int) + d) (hhi : (i : Int) + d < ((flattenStories s.stories).length : Int)) :
    jumpToStory (-d) (jumpToStory d s) = s ∧
    (jumpToStory d s).stories = s.stories ∧
    (jumpToStory d s).shortcutOptions = s.shortcutOptions := by
  obtain ⟨q, hq, hget⟩ := arrayGet_in_bounds (flattenStories s.stories) _ hlo hhi
  have hthere : jumpToStory d s =
      { s with selectedKind := JSVal.str q.kind, selectedStory := JSVal.str q.story } := by
    rw [jumpToStory_from_last s i p d hk hs hi (nodup_last_occurrence hnodup hi), hget]
  have hback_index : (((i : Int) + d).toNat : Int) + (-d) = (i : Int) := by omega
  have hget2 : arrayGet (flattenStories s.stories) ((((i : Int) + d).toNat : Int) + (-d)) =
      some p := by
    rw [hback_index, arrayGet_of_nonneg _ _ (by omega)]
    simpa using hi
  refine ⟨?_, ?_, ?_⟩
  · rw [hthere,
      jumpToStory_from_last
        { s with selectedKind := JSVal.str q.kind, selectedStory := JSVal.str q.story }
        ((i : Int) + d).toNat q (-d) rfl rfl hq (nodup_last_occurrence hnodup hq)]
    simp only [hget2]
    rw [← hk, ← hs]
  · rw [hthere]
  · rw [hthere]

/-- C19, at the hierarchy `[A:[a1,a2], B:[b1]]` with the selection `(A, a2)`:
next and then previous gives back the starting state. -/
theorem jumpToStory_there_and_back_witness :
    jumpToStory (-1) (jumpToStory 1 (storeWith hierarchyAB (JSVal.str "A") (JSVal.str "a2"))) =
      storeWith hierarchyAB (JSVal.str "A") (JSVal.str "a2") :=
  (jumpToStory_there_and_back (storeWith hierarchyAB (JSVal.str "A") (JSVal.str "a2")) 1
    { kind := "A", story := "a2" } 1 rfl rfl (by decide) (by decide) (by decide)
    (by decide)).1

/-! ## `urlState` fed back to `updateFromLocation` -/

theorem foldl_objSet_eq_self (o vals : Obj) (keys : List String)
    (h : ∀ key ∈ keys, objGet? o key = some (objRead vals key)) :
    keys.foldl (fun acc key => objSet acc key (objRead vals key)) o = o := by
  induction keys with
  | nil => rfl
  | cons a rest ih =>
    rw [List.foldl_cons, objSet_eq_self (h a (List.mem_cons_self _ _))]
    exact ih (fun key hkey => h key (List.mem_cons_of_mem _ hkey))

/-- Assigning properties that the target already has with the same values
changes nothing. -/
theorem objAssign_eq_self {o vals : Obj}
    (h : ∀ k v, objGet? vals k = some v → objGet? o k = some v) : objAssign o vals = o := by
  unfold objAssign
  apply foldl_objSet_eq_self
  intro key hkey
  obtain ⟨v, hv⟩ := (mem_objKeys_iff vals key).mp hkey
  rw [objRead_of_get hv]
  exact h key v hv

/-- The rest of `urlState` after the six named keys holds nothing but custom
query parameters, so `setQueryParams` on it changes nothing. -/
theorem setQueryParams_rest_urlState (s : Store) :
    (setQueryParams (objRest (urlState s) locationKeys) s).customQueryParams =
      s.customQueryParams := by
  unfold setQueryParams mobxSet
  simp only
  apply objAssign_eq_self
  intro k v hget
  rw [objGet?_reduce_non_null, objGet?_objRest] at hget
  by_cases hp : k = "__proto__"
  · rw [if_pos hp] at hget
    cases hget
  rw [if_neg hp] at hget
  by_cases hk : k ∈ locationKeys
  · simp [hk] at hget
  · rw [if_neg hk, urlState_get] at hget
    cases hc : objGet? s.customQueryParams k with
    | some w =>
      rw [hc] at hget
      by_cases hw : w = JSVal.null
      · simp [hw] at hget
      · simp only [hw, if_false, Option.some.injEq] at hget
        rw [hget]
    | none =>
      rw [hc] at hget
      have hbase : objGet?
          [ ("selectedKind", s.selectedKind),
            ("selectedStory", s.selectedStory),
            ("full", s.shortcutOptions.full),
            ("panel", s.shortcutOptions.panel),
            ("nav", s.shortcutOptions.nav) ] k = none := by
        simp only [locationKeys, List.mem_cons, List.mem_singleton, not_or, List.not_mem_nil,
          or_false] at hk
        obtain ⟨h1, h2, _, h4, h5, h6⟩ := hk
        simp [objGet?, Ne.symm h1, Ne.symm h2, Ne.symm h4, Ne.symm h5, Ne.symm h6]
      simp [hbase] at hget

/-- The reads of the six named keys from `urlState` when no custom query
parameter has one of these keys. -/
theorem urlState_read_named (s : Store)
    (hkeys : ∀ k ∈ locationKeys, k ∉ objKeys s.customQueryParams) :
    objRead (urlState s) "selectedKind" = s.selectedKind ∧
    objRead (urlState s) "selectedStory" = s.selectedStory ∧
    objRead (urlState s) "addonPanel" = JSVal.undefined ∧
    objRead (urlState s) "full" = s.shortcutOptions.full ∧
    objRead (urlState s) "panel" = s.shortcutOptions.panel ∧
    objRead (urlState s) "nav" = s.shortcutOptions.nav := by
  have hnone : ∀ k ∈ locationKeys, objGet? s.customQueryParams k = none :=
    fun k hk => (objGet?_eq_none_iff _ k).mpr (hkeys k hk)
  have h1 := hnone "selectedKind" (by decide)
  have h2 := hnone "selectedStory" (by decide)
  have h3 := hnone "addonPanel" (by decide)
  have h4 := hnone "full" (by decide)
  have h5 := hnone "panel" (by decide)
  have h6 := hnone "nav" (by decide)
  refine ⟨?_, ?_, ?_, ?_, ?_, ?_⟩ <;>
    simp [objRead, urlState_get, h1, h2, h3, h4, h5, h6, objGet?]

/-- C20: when `full` and `nav` are booleans, `panel` is `'right'`, `'bottom'`
or `false`, and no custom query parameter has one of the six keys that
`updateFromLocation` names, `updateFromLocation` with the `urlState` of the
state gives back the same state: the selection, the shortcut flags,
`selectedAddonPanel`, `customQueryParams` and every other field are unchanged.
That the custom values are not `null` is not needed. -/
theorem updateFromLocation_urlState (numberIsTruthy : String → Bool) (s : Store)
    (hfull : ∃ b, s.shortcutOptions.full = JSVal.bool b)
    (hnav : ∃ b, s.shortcutOptions.nav = JSVal.bool b)
    (hpanel : s.shortcutOptions.panel = JSVal.str "right" ∨
      s.shortcutOptions.panel = JSVal.str "bottom" ∨ s.shortcutOptions.panel = JSVal.bool false)
    (hkeys : ∀ k ∈ locationKeys, k ∉ objKeys s.customQueryParams) :
    updateFromLocation numberIsTruthy (urlState s) s = s := by
  obtain ⟨hrk, hrs, hra, hrf, hrp, hrn⟩ := urlState_read_named s hkeys
  rw [updateFromLocation_eq, setQueryParams_rest_urlState, hrk, hrs, hra, hrf, hrp, hrn]
  obtain ⟨bf, hbf⟩ := hfull
  obtain ⟨bn, hbn⟩ := hnav
  rcases s with ⟨stories, help, filter, addon, ⟨full, nav, panel, enable⟩, ui, custom, kind, story⟩
  simp only at hbf hbn hpanel
  subst hbf hbn
  rcases hpanel with hp | hp | hp <;> subst hp <;>
    simp [withDefault, booleanOfNumber, JSVal.truthy]

/-- C20, at a concrete input: the state over `[A:[a1,a2], B:[b1]]` with the
selection `(A, a2)` and the custom query parameter `theme = "dark"`. -/
theorem updateFromLocation_urlState_witness :
    updateFromLocation zeroOneIsTruthy
        (urlState (setQueryParams [("theme", JSVal.str "dark")]
          (storeWith hierarchyAB (JSVal.str "A") (JSVal.str "a2"))))
        (setQueryParams [("theme", JSVal.str "dark")]
          (storeWith hierarchyAB (JSVal.str "A") (JSVal.str "a2"))) =
      setQueryParams [("theme", JSVal.str "dark")]
        (storeWith hierarchyAB (JSVal.str "A") (JSVal.str "a2")) :=
  updateFromLocation_urlState zeroOneIsTruthy
    (setQueryParams [("theme", JSVal.str "dark")]
      (storeWith hierarchyAB (JSVal.str "A") (JSVal.str "a2")))
    ⟨false, rfl⟩ ⟨true, rfl⟩ (Or.inl rfl) (by decide)

end Storybook
